import Mathlib

set_option maxRecDepth 100000

/-!
Verification of the terminal-transcript extraction core
(`tools-src/codex-pty/src/transcript.rs` of the `happy` repository).

Strings are modelled as `List Char`; byte positions are recovered through
`Char.utf8Size`, matching Rust's UTF-8 `&str` indexing.  Every definition is a
direct shallow embedding of the corresponding Rust item and keeps its name.
-/

/-- Unicode `White_Space` property, the set used by Rust's `char::is_whitespace`. -/
def rustIsWhitespace (c : Char) : Bool :=
  c.toNat = 0x20 || c.toNat = 0x09 || c.toNat = 0x0A || c.toNat = 0x0B ||
  c.toNat = 0x0C || c.toNat = 0x0D || c.toNat = 0x85 || c.toNat = 0xA0 ||
  c.toNat = 0x1680 || (0x2000 ≤ c.toNat && c.toNat ≤ 0x200A) ||
  c.toNat = 0x2028 || c.toNat = 0x2029 || c.toNat = 0x202F || c.toNat = 0x205F ||
  c.toNat = 0x3000

/-- Rust `str::trim_start`. -/
def rustTrimStart (s : List Char) : List Char :=
  s.dropWhile (fun c => rustIsWhitespace c)

/-- Rust `str::trim_end`. -/
def rustTrimEnd : List Char → List Char
  | [] => []
  | c :: rest =>
    let r := rustTrimEnd rest
    if r = [] ∧ rustIsWhitespace c = true then [] else c :: r

/-- Rust `str::trim`. -/
def rustTrim (s : List Char) : List Char :=
  rustTrimStart (rustTrimEnd s)

/-- Rust `str::starts_with` on the character-list model. -/
def startsWith : List Char → List Char → Bool
  | _, [] => true
  | [], _ :: _ => false
  | c :: s, p :: ps => if c = p then startsWith s ps else false

/-- Rust `str::contains` with a nonempty literal pattern (substring search). -/
def containsStr : List Char → List Char → Bool
  | [], pat => pat.isEmpty
  | c :: rest, pat => startsWith (c :: rest) pat || containsStr rest pat

/-- Splits at every newline character; auxiliary to `rustLines`. -/
def splitNl : List Char → List (List Char)
  | [] => [[]]
  | c :: rest =>
    if c = '\n' then [] :: splitNl rest
    else
      match splitNl rest with
      | [] => [[c]]
      | p :: ps => (c :: p) :: ps

/-- Removes one trailing carriage return, as Rust's `lines` does on each
newline-terminated segment. -/
def stripCR (l : List Char) : List Char :=
  if l.getLast? = some '\r' then l.dropLast else l

/-- Rust `str::lines`: split on `'\n'`, strip a trailing `'\r'` from every
newline-terminated segment, and drop the final segment when it is empty. -/
def rustLines (s : List Char) : List (List Char) :=
  let ps := splitNl s
  ps.dropLast.map stripCR ++
    (match ps.getLast? with
     | some [] => []
     | some l => [l]
     | none => [])

theorem startsWith_append_left (p r : List Char) : startsWith (p ++ r) p = true := by
  induction p with
  | nil => cases r <;> rfl
  | cons c s ih => simp [startsWith, ih]

theorem startsWith_iff (s p : List Char) :
    startsWith s p = true ↔ ∃ r, s = p ++ r := by
  induction p generalizing s with
  | nil => simp [startsWith]
  | cons c p ih =>
    cases s with
    | nil => simp [startsWith]
    | cons a s =>
      simp only [startsWith]
      by_cases h : a = c
      · subst h
        rw [if_pos rfl, ih]
        constructor
        · rintro ⟨r, rfl⟩
          exact ⟨r, rfl⟩
        · rintro ⟨r, hr⟩
          injection hr with h1 h2
          exact ⟨r, h2⟩
      · rw [if_neg h]
        constructor
        · intro hh
          exact absurd hh (by simp)
        · rintro ⟨r, hr⟩
          injection hr with h1 h2
          exact absurd h1 h

theorem splitNl_no_nl (a : List Char) (h : '\n' ∉ a) : splitNl a = [a] := by
  induction a with
  | nil => rfl
  | cons c rest ih =>
    have hc : c ≠ '\n' := fun hc => h (hc ▸ List.mem_cons_self c rest)
    have hr : '\n' ∉ rest := fun hr => h (List.mem_cons_of_mem c hr)
    simp [splitNl, hc, ih hr]

theorem splitNl_append (a b : List Char) (h : '\n' ∉ a) :
    splitNl (a ++ '\n' :: b) = a :: splitNl b := by
  induction a with
  | nil => simp [splitNl]
  | cons c rest ih =>
    have hc : c ≠ '\n' := fun hc => h (hc ▸ List.mem_cons_self c rest)
    have hr : '\n' ∉ rest := fun hr => h (List.mem_cons_of_mem c hr)
    simp only [List.cons_append, splitNl, if_neg hc, List.append_eq]
    rw [ih hr]

theorem stripCR_no_cr (l : List Char) (h : '\r' ∉ l) : stripCR l = l := by
  unfold stripCR
  cases hl : l.getLast? with
  | none => simp
  | some c =>
    have hc : c ∈ l := by
      obtain ⟨hne, rfl⟩ := List.mem_getLast?_eq_getLast (l := l) (x := c) (by rw [hl]; rfl)
      exact List.getLast_mem hne
    have : c ≠ '\r' := fun hcr => h (hcr ▸ hc)
    simp [hl, this]

theorem rustLines_single (row : List Char) (h1 : '\n' ∉ row) (h2 : row ≠ []) :
    rustLines row = [row] := by
  unfold rustLines
  rw [splitNl_no_nl row h1]
  simp [h2]

/-- Byte index of the first occurrence of `pat` in `s`, Rust `str::find`. -/
def findSub : List Char → List Char → Option Nat
  | [], pat => if pat = [] then some 0 else none
  | c :: rest, pat =>
    if startsWith (c :: rest) pat = true then some 0
    else (findSub rest pat).map (fun n => n + c.utf8Size)

/-- Number of UTF-8 bytes of a character list, Rust `str::len`. -/
def utf8Len : List Char → Nat
  | [] => 0
  | c :: rest => c.utf8Size + utf8Len rest

/-- `transcript_key` (transcript.rs): collapse every whitespace run to one
space, then trim both ends; auxiliary recursion carries the `prev_ws` flag. -/
def collapseWs : List Char → Bool → List Char
  | [], _ => []
  | c :: rest, prevWs =>
    if rustIsWhitespace c = true then
      (if prevWs then collapseWs rest true else ' ' :: collapseWs rest true)
    else c :: collapseWs rest false

/-- `transcript_key` (transcript.rs, lines 46-63). -/
def transcript_key (s : List Char) : List Char :=
  rustTrim (collapseWs s false)

/-- `is_ui_noise_line` (transcript.rs, lines 65-86). -/
def is_ui_noise_line (raw : List Char) : Bool :=
  let trimmed := rustTrim raw
  let is_context_left :=
    if startsWith trimmed.reverse ("% context left".data.reverse) = true then
      let p := rustTrim (trimmed.take (trimmed.length - ("% context left".data.length)))
      !p.isEmpty && p.all (fun c => c.isDigit)
    else false
  is_context_left ||
  startsWith raw ("? for shortcuts".data) ||
  startsWith raw ("model:".data) ||
  startsWith raw ("directory:".data) ||
  startsWith raw ("╭".data) ||
  startsWith raw ("╰".data) ||
  startsWith raw ("│".data) ||
  startsWith raw ("◦".data) ||
  startsWith raw ("◯".data) ||
  startsWith raw ("○".data) ||
  containsStr trimmed ("esc to interrupt".data)

/-- `strip_hanging_indent` (transcript.rs, lines 88-90). -/
def strip_hanging_indent (raw : List Char) : List Char :=
  if startsWith raw ("  ".data) = true then raw.drop 2 else raw

/-- `is_prompt_marker_line` (transcript.rs, lines 92-94). -/
def is_prompt_marker_line (raw : List Char) : Bool :=
  startsWith raw ("> ".data) || decide (raw = ">".data) ||
  startsWith raw ("› ".data) || decide (raw = "›".data)

/-- `strip_prompt_marker` (transcript.rs, lines 96-108). -/
def strip_prompt_marker (raw : List Char) : Option (List Char) :=
  if startsWith raw ("> ".data) = true then some (raw.drop 2)
  else if raw = ">".data then some []
  else if startsWith raw ("› ".data) = true then some (raw.drop 2)
  else if raw = "›".data then some []
  else none

/-- `is_system_notice_line` (transcript.rs, lines 110-138). -/
def is_system_notice_line (trimmedStart : List Char) : Bool :=
  if startsWith trimmedStart ("Tip:".data) = true ∨
     startsWith trimmedStart ("> ".data) = true ∨
     trimmedStart = ">".data ∨
     startsWith trimmedStart ("› ".data) = true ∨
     trimmedStart = "›".data ∨
     startsWith trimmedStart ("• ".data) = true then false
  else
    let trimmed := rustTrim trimmedStart
    if startsWith trimmed ("⚠".data) = true then true
    else
      match findSub trimmed ("Heads up,".data) with
      | some idx =>
        decide (idx ≤ 4) &&
        (containsStr trimmed ("weekly limit".data) ||
         containsStr trimmed ("/status".data) ||
         containsStr trimmed ("%".data))
      | none => false

/-- Index of the last prompt-marker row, tracked while scanning; auxiliary. -/
def lastPromptIdxAux : Nat → List (List Char) → Option Nat
  | _, [] => none
  | i, l :: rest =>
    match lastPromptIdxAux (i + 1) rest with
    | some j => some j
    | none => if is_prompt_marker_line l = true then some i else none

/-- The `prompt_row` scan shared by `extract_chat_area`,
`extract_transcript_candidates` and `mirror_assistant_screen`: the
highest-indexed row recognised as a prompt marker. -/
def lastPromptIdx (ls : List (List Char)) : Option Nat :=
  lastPromptIdxAux 0 ls

/-- Drops trailing fully-blank rows, the `while ... pop()` loops of
transcript.rs. -/
def trimTrailingBlanks (msgs : List (List Char)) : List (List Char) :=
  (msgs.reverse.dropWhile (fun l => (rustTrim l).isEmpty)).reverse

/-- `ChatArea` (transcript.rs, lines 140-150). -/
structure ChatArea where
  lines : List (List Char)
  prompt_row : Option Nat
deriving DecidableEq

/-- `extract_chat_area` (transcript.rs, lines 152-183). -/
def extract_chat_area (screen : List Char) : ChatArea :=
  let lines := rustLines screen
  let prompt_row := lastPromptIdx lines
  let e := prompt_row.getD lines.length
  let kept := ((lines.take e).map rustTrimEnd).filter (fun ln => !is_ui_noise_line ln)
  ⟨trimTrailingBlanks kept, prompt_row⟩

/-- The blanking pass of `mirror_assistant_screen` (lines 200-211): noise rows
and rows at/below the prompt row are cleared in place. -/
def blankPass : Option Nat → Nat → List (List Char) → List (List Char)
  | _, _, [] => []
  | pr, i, l :: rest =>
    (if is_ui_noise_line l = true then []
     else
       match pr with
       | some p => if p ≤ i then [] else l
       | none => l) :: blankPass pr (i + 1) rest

/-- The right-trimmed, padded and truncated row window built by
`mirror_assistant_screen` (lines 186-191) before blanking. -/
def mirrorWindow (screen : List Char) (rows : Nat) : List (List Char) :=
  let out := (rustLines screen).map rustTrimEnd
  (out ++ List.replicate (rows - out.length) []).take rows

/-- `mirror_assistant_screen` (transcript.rs, lines 185-214). -/
def mirror_assistant_screen (screen : List Char) (rows : Nat) : List (List Char) :=
  blankPass (lastPromptIdx (mirrorWindow screen rows)) 0 (mirrorWindow screen rows)

theorem fixture_1 : extract_chat_area ("model: foo\nHello\n\n> input\n".data) =
    ⟨["Hello".data], some 3⟩ := by decide

theorem fixture_2 : mirror_assistant_screen ("model: foo\nHello\n> input\nTAIL\n".data) 4 =
    [[], "Hello".data, [], []] := by decide

/-- `Vec<String>::join("\n")`. -/
def joinNl : List (List Char) → List Char
  | [] => []
  | [x] => x
  | x :: xs => x ++ '\n' :: joinNl xs

/-- The continuation-absorbing inner loops of `extract_transcript_candidates`
(transcript.rs, lines 349-384, 399-435, 464-499, 520-555).  The four copies in
the source differ in exactly two points, passed here as flags: whether a
`Tip:`-starting row also breaks the block (`breakOnTip`, true for the
system-notice and tip blocks), and whether the 2-column hanging indent is
stripped from continuation rows (`stripIndent`, false only for tip blocks).
Returns the accumulated message lines and the unconsumed rows. -/
def collectCont (breakOnTip stripIndent : Bool) :
    List (List Char) → List (List Char) → Bool → List (List Char) × List (List Char)
  | [], msg, _ => (msg, [])
  | l :: rest, msg, pendingBlank =>
    let raw2 := rustTrimEnd l
    let t2 := rustTrim raw2
    if t2 = [] then collectCont breakOnTip stripIndent rest msg true
    else
      let t2s := rustTrimStart raw2
      if (breakOnTip = true ∧ startsWith t2s ("Tip:".data) = true) ∨
         is_system_notice_line t2s = true ∨
         startsWith raw2 ("• ".data) = true ∨
         startsWith raw2 ("> ".data) = true ∨
         raw2 = ">".data ∨
         startsWith raw2 ("› ".data) = true ∨
         raw2 = "›".data then (msg, l :: rest)
      else if is_ui_noise_line raw2 = true then (msg, l :: rest)
      else
        collectCont breakOnTip stripIndent rest
          ((if pendingBlank then msg ++ [[]] else msg) ++
           [if stripIndent then strip_hanging_indent raw2 else raw2]) false

/-- The outer `while i < lines.len()` loop of `extract_transcript_candidates`
(transcript.rs, lines 326-566), written with explicit fuel; every iteration
consumes at least one row, so fuel `ls.length` suffices. -/
def extractLoopF : Nat → Option Nat → Nat → List (List Char) → List (List Char)
  | 0, _, _, _ => []
  | _ + 1, _, _, [] => []
  | fuel + 1, promptRow, i, l :: rest =>
    let raw := rustTrimEnd l
    let trimmedStart := rustTrimStart raw
    let trimmed := rustTrim trimmedStart
    if trimmed = [] then extractLoopF fuel promptRow (i + 1) rest
    else if is_ui_noise_line raw = true then extractLoopF fuel promptRow (i + 1) rest
    else if is_system_notice_line trimmedStart = true then
      let r := collectCont true true rest ["system: ".data ++ trimmed] false
      joinNl (trimTrailingBlanks r.1) ::
        extractLoopF fuel promptRow (i + 1 + (rest.length - r.2.length)) r.2
    else if startsWith trimmed ("Tip:".data) = true then
      let r := collectCont true false rest ["system: ".data ++ trimmed] false
      joinNl (trimTrailingBlanks r.1) ::
        extractLoopF fuel promptRow (i + 1 + (rest.length - r.2.length)) r.2
    else if is_prompt_marker_line raw = true ∧ promptRow = some i then
      extractLoopF fuel promptRow (i + 1) rest
    else if is_prompt_marker_line raw = true then
      let content := rustTrimEnd ((strip_prompt_marker raw).getD raw)
      if rustTrim content = [] then extractLoopF fuel promptRow (i + 1) rest
      else
        let r := collectCont false true rest ["user: ".data ++ content] false
        joinNl (trimTrailingBlanks r.1) ::
          extractLoopF fuel promptRow (i + 1 + (rest.length - r.2.length)) r.2
    else if startsWith raw ("• ".data) = true then
      if containsStr trimmed ("Working".data) = true ∨
         containsStr trimmed ("esc to interrupt".data) = true then
        extractLoopF fuel promptRow (i + 1) rest
      else
        let content := if startsWith raw ("• ".data) = true then raw.drop 2 else raw
        let r := collectCont false true rest ["assistant: ".data ++ content] false
        joinNl (trimTrailingBlanks r.1) ::
          extractLoopF fuel promptRow (i + 1 + (rest.length - r.2.length)) r.2
    else extractLoopF fuel promptRow (i + 1) rest

/-- `extract_transcript_candidates` (transcript.rs, lines 312-569). -/
def extract_transcript_candidates (screen : List Char) : List (List Char) :=
  let lines := rustLines screen
  extractLoopF lines.length (lastPromptIdx lines) 0 lines

theorem fixture_3 : extract_transcript_candidates
    ("Tip: A tip\n\n• First line\n  continuation one\n\n  continuation two\n- list a\n1. list b\n> prompt\n".data) =
    ["system: Tip: A tip".data,
     "assistant: First line\ncontinuation one\n\ncontinuation two\n- list a\n1. list b".data] := by
  decide

theorem fixture_4 : extract_transcript_candidates
    ("> previous line one\n  previous line two\n\n• assistant line\n  assistant cont\n\n› draft input\n  draft cont\n? for shortcuts\n".data) =
    ["user: previous line one\nprevious line two".data,
     "assistant: assistant line\nassistant cont".data] := by
  decide

theorem fixture_5 : extract_transcript_candidates ("• hello\n>\n".data) =
    ["assistant: hello".data] := by decide

theorem fixture_6 : extract_transcript_candidates
    ("  Tip: Hello\n  second line\n\n• assistant\n> prompt\n".data) =
    ["system: Tip: Hello\n  second line".data, "assistant: assistant".data] := by decide

theorem fixture_7 : extract_transcript_candidates
    ("⚠ Heads up, you have less than 25% of your weekly limit left.\n  Run /status for a breakdown.\n> prompt\n".data) =
    ["system: ⚠ Heads up, you have less than 25% of your weekly limit left.\nRun /status for a breakdown.".data] := by
  decide

theorem fixture_8 : extract_transcript_candidates
    ("• First line\n  > quoted continuation\n  Tip: Keep it simple.\n> prompt\n".data) =
    ["assistant: First line\n> quoted continuation\nTip: Keep it simple.".data] := by decide

theorem fixture_9 : extract_transcript_candidates ("• ╭foo╮\n  │bar│\n  ╰baz╯\n> prompt\n".data) =
    ["assistant: ╭foo╮\n│bar│\n╰baz╯".data] := by decide

theorem fixture_10 : extract_transcript_candidates
    ("• /Users/tartavull\n◦\nCnfrming current directoy (4s • esc to interrupt)\n4\ng\nng\nin\nki\nrk\nor\nWog\nWng\n> prompt\n".data) =
    ["assistant: /Users/tartavull".data] := by decide

/-- `TranscriptPrinter` (transcript.rs, lines 3-14); the `HashSet<String>` of
printed keys is modelled as a list of keys with set membership. -/
structure TranscriptPrinter where
  printed_keys : List (List Char)
  saw_prompt : Bool
deriving DecidableEq

/-- `TranscriptPrinter::new`. -/
def TranscriptPrinter.new : TranscriptPrinter := ⟨[], false⟩

/-- The candidate loop of `TranscriptPrinter::on_screen` (lines 34-40):
`printed_keys.insert(key)` emits the line exactly when the key is new.
Returns the grown key set and the emitted lines in order. -/
def emitLoop : List (List Char) → List (List Char) → List (List Char) × List (List Char)
  | keys, [] => (keys, [])
  | keys, line :: rest =>
    if transcript_key line ∈ keys then emitLoop keys rest
    else
      let r := emitLoop (transcript_key line :: keys) rest
      (r.1, line :: r.2)

/-- `TranscriptPrinter::on_screen` (transcript.rs, lines 16-43). -/
def on_screen (p : TranscriptPrinter) (screen : List Char) :
    TranscriptPrinter × List (List Char) :=
  let saw := p.saw_prompt || (extract_chat_area screen).prompt_row.isSome
  if saw = false then ({ p with saw_prompt := saw }, [])
  else if containsStr screen ("esc to interrupt".data) = true then
    ({ p with saw_prompt := saw }, [])
  else
    let r := emitLoop p.printed_keys (extract_transcript_candidates screen)
    (⟨r.1, saw⟩, r.2)

/-- Feeds a sequence of snapshots to one `TranscriptPrinter` session, returning
the final state and the per-round emissions. -/
def runPrinter : TranscriptPrinter → List (List Char) → TranscriptPrinter × List (List (List Char))
  | p, [] => (p, [])
  | p, s :: ss =>
    let r := on_screen p s
    let rr := runPrinter r.1 ss
    (rr.1, r.2 :: rr.2)

/-- `ChatDeltaKind` (transcript.rs, lines 216-222). -/
inductive ChatDeltaKind where
  | Initial
  | Append
  | Rewrite
  | NoChange
deriving DecidableEq

/-- `ChatDeltaUpdate` (transcript.rs, lines 224-228). -/
structure ChatDeltaUpdate where
  kind : ChatDeltaKind
  delta : List Char
deriving DecidableEq

/-- `ChatDeltaEmitter` (transcript.rs, lines 230-235). -/
structure ChatDeltaEmitter where
  prev : List Char
  rewrite_events : Nat
  total_emitted_chars : Nat
  last_delta_chars : Nat
deriving DecidableEq

/-- `ChatDeltaEmitter::new`. -/
def ChatDeltaEmitter.new : ChatDeltaEmitter := ⟨[], 0, 0, 0⟩

/-- The loop of `common_prefix_byte_index` (transcript.rs, lines 293-310):
walks `b`'s characters with their byte offsets while consuming `a`'s
characters, tracking the byte index one past the last matched character. -/
def cpbiAux : List Char → List Char → Nat → Nat → Nat
  | _, [], _, last => last
  | [], _ :: _, _, last => last
  | chA :: restA, chB :: restB, idx, last =>
    if chA = chB then cpbiAux restA restB (idx + chB.utf8Size) (idx + chB.utf8Size)
    else last

/-- `common_prefix_byte_index` (transcript.rs, lines 293-310). -/
def common_prefix_byte_index (a b : List Char) : Nat :=
  cpbiAux a b 0 0

/-- Rust byte slicing `&s[n..]`: `none` models the `panic!` on an
out-of-range index or an index inside a multi-byte character. -/
def sliceFrom : List Char → Nat → Option (List Char)
  | l, 0 => some l
  | [], _ + 1 => none
  | c :: rest, n + 1 =>
    if c.utf8Size ≤ n + 1 then sliceFrom rest (n + 1 - c.utf8Size) else none

/-- `ChatDeltaEmitter::on_chat_text` (transcript.rs, lines 247-290); `none`
models a slicing panic (proved unreachable below). -/
def on_chat_text (e : ChatDeltaEmitter) (t : List Char) :
    Option (ChatDeltaEmitter × ChatDeltaUpdate) :=
  if t = e.prev then
    some ({ e with last_delta_chars := 0 }, ⟨.NoChange, []⟩)
  else if e.prev = [] then
    some ({ e with prev := t,
                   total_emitted_chars := e.total_emitted_chars + t.length,
                   last_delta_chars := t.length }, ⟨.Initial, t⟩)
  else
    let lcp := common_prefix_byte_index e.prev t
    if lcp = utf8Len e.prev then
      match sliceFrom t lcp with
      | none => none
      | some delta =>
        some ({ e with prev := t,
                       total_emitted_chars := e.total_emitted_chars + delta.length,
                       last_delta_chars := delta.length }, ⟨.Append, delta⟩)
    else
      some ({ e with prev := t,
                     rewrite_events := e.rewrite_events + 1,
                     last_delta_chars := 0 }, ⟨.Rewrite, []⟩)

/-- Total form of `on_chat_text`; proved equal to the partial form. -/
def on_chat_textT (e : ChatDeltaEmitter) (t : List Char) :
    ChatDeltaEmitter × ChatDeltaUpdate :=
  (on_chat_text e t).getD (e, ⟨.NoChange, []⟩)

/-- Feeds a sequence of chat texts to one `ChatDeltaEmitter` session. -/
def runEmitter : ChatDeltaEmitter → List (List Char) → ChatDeltaEmitter × List ChatDeltaUpdate
  | e, [] => (e, [])
  | e, t :: ts =>
    let r := on_chat_textT e t
    let rr := runEmitter r.1 ts
    (rr.1, r.2 :: rr.2)

/-- The chain `T1, T1 ++ s1, T1 ++ s1 ++ s2, ...` of texts in which each
element extends the previous one by a suffix. -/
def chainTexts : List Char → List (List Char) → List (List Char)
  | t0, [] => [t0]
  | t0, s :: ss => t0 :: chainTexts (t0 ++ s) ss

theorem fixture_11 : (runEmitter ChatDeltaEmitter.new ["Hello".data, "Hello world".data, "Different".data]).2 =
    [⟨.Initial, "Hello".data⟩, ⟨.Append, " world".data⟩, ⟨.Rewrite, []⟩] := by decide

theorem fixture_12 : (runEmitter ChatDeltaEmitter.new ["Hello".data, "Hello world".data, "Different".data]).1.rewrite_events = 1 := by decide

theorem fixture_13 :
    (runPrinter TranscriptPrinter.new
      ["• The smell of pizza drifted down the hallway.\n  Warm and peppery.\n".data,
       "• The smell   of  pizza drifted down the hallway.\n  Warm   and peppery.\n".data,
       "• The smell of pizza drifted down the hallway.\n  Warm and peppery.\n> prompt\n".data,
       "• The smell of pizza drifted down the hallway.\n  Warm and peppery.\n> prompt\n".data]).2 =
    [[], [], ["assistant: The smell of pizza drifted down the hallway.\nWarm and peppery.".data], []] := by
  decide

theorem fixture_14 :
    (runPrinter TranscriptPrinter.new
      ["• First line\n  continuation\n◦ Working (1s • esc to interrupt)\n> prompt\n".data,
       "• First line\n  continuation\n> prompt\n".data,
       "• First line\n  continuation\n> prompt\n".data]).2 =
    [[], ["assistant: First line\ncontinuation".data], []] := by
  decide

theorem emitLoop_keys_sub (lines keys : List (List Char)) (k : List Char)
    (h : k ∈ keys) : k ∈ (emitLoop keys lines).1 := by
  induction lines generalizing keys with
  | nil => exact h
  | cons line rest ih =>
    by_cases hm : transcript_key line ∈ keys
    · simpa [emitLoop, hm] using ih keys h
    · simpa [emitLoop, hm] using ih (transcript_key line :: keys) (List.mem_cons_of_mem _ h)

theorem emitLoop_emitted (lines keys : List (List Char)) (l : List Char)
    (h : l ∈ (emitLoop keys lines).2) :
    transcript_key l ∉ keys ∧ transcript_key l ∈ (emitLoop keys lines).1 := by
  induction lines generalizing keys with
  | nil => simp [emitLoop] at h
  | cons line rest ih =>
    by_cases hm : transcript_key line ∈ keys
    · rw [emitLoop, if_pos hm] at h ⊢
      exact ih keys h
    · rw [emitLoop, if_neg hm] at h ⊢
      rcases List.mem_cons.1 h with rfl | h2
      · exact ⟨hm, emitLoop_keys_sub rest _ _ (List.mem_cons_self _ _)⟩
      · have := ih (transcript_key line :: keys) h2
        exact ⟨fun hk => this.1 (List.mem_cons_of_mem _ hk), this.2⟩

theorem emitLoop_pairwise (lines keys : List (List Char)) :
    ((emitLoop keys lines).2).Pairwise (fun a b => transcript_key a ≠ transcript_key b) := by
  induction lines generalizing keys with
  | nil => simp [emitLoop]
  | cons line rest ih =>
    by_cases hm : transcript_key line ∈ keys
    · rw [emitLoop, if_pos hm]
      exact ih keys
    · rw [emitLoop, if_neg hm]
      refine List.Pairwise.cons ?_ (ih (transcript_key line :: keys))
      intro l hl heq
      exact (emitLoop_emitted rest _ l hl).1 (heq ▸ List.mem_cons_self _ _)

theorem on_screen_keys_sub (p : TranscriptPrinter) (s : List Char) (k : List Char)
    (h : k ∈ p.printed_keys) : k ∈ (on_screen p s).1.printed_keys := by
  unfold on_screen
  by_cases h1 : (p.saw_prompt || (extract_chat_area s).prompt_row.isSome) = false
  · simpa [h1] using h
  · by_cases h2 : containsStr s ("esc to interrupt".data) = true
    · simpa [h1, h2] using h
    · simpa [h1, h2] using emitLoop_keys_sub _ _ _ h

theorem on_screen_emitted (p : TranscriptPrinter) (s : List Char) (l : List Char)
    (h : l ∈ (on_screen p s).2) :
    transcript_key l ∉ p.printed_keys ∧ transcript_key l ∈ (on_screen p s).1.printed_keys := by
  unfold on_screen at h ⊢
  by_cases h1 : (p.saw_prompt || (extract_chat_area s).prompt_row.isSome) = false
  · simp [h1] at h
  · by_cases h2 : containsStr s ("esc to interrupt".data) = true
    · simp [h1, h2] at h
    · simp only [h1, h2] at h ⊢
      simpa using emitLoop_emitted _ _ _ (by simpa using h)

theorem on_screen_pairwise (p : TranscriptPrinter) (s : List Char) :
    ((on_screen p s).2).Pairwise (fun a b => transcript_key a ≠ transcript_key b) := by
  unfold on_screen
  by_cases h1 : (p.saw_prompt || (extract_chat_area s).prompt_row.isSome) = false
  · simp [h1]
  · by_cases h2 : containsStr s ("esc to interrupt".data) = true
    · simp [h1, h2]
    · simpa [h1, h2] using emitLoop_pairwise (extract_transcript_candidates s) p.printed_keys

theorem runPrinter_spec (ss : List (List Char)) (p : TranscriptPrinter) :
    (∀ k ∈ p.printed_keys, k ∈ (runPrinter p ss).1.printed_keys) ∧
    (∀ l ∈ ((runPrinter p ss).2).flatten,
      transcript_key l ∉ p.printed_keys ∧
      transcript_key l ∈ (runPrinter p ss).1.printed_keys) ∧
    (((runPrinter p ss).2).flatten).Pairwise (fun a b => transcript_key a ≠ transcript_key b) := by
  induction ss generalizing p with
  | nil => simp [runPrinter]
  | cons s rest ih =>
    obtain ⟨ihSub, ihMem, ihPw⟩ := ih (on_screen p s).1
    refine ⟨?_, ?_, ?_⟩
    · intro k hk
      exact ihSub k (on_screen_keys_sub p s k hk)
    · intro l hl
      rw [runPrinter] at hl
      rw [List.flatten_cons, List.mem_append] at hl
      rcases hl with hl | hl
      · have h1 := on_screen_emitted p s l hl
        exact ⟨h1.1, ihSub _ h1.2⟩
      · have h1 := ihMem l (by simpa using hl)
        refine ⟨fun hk => h1.1 (on_screen_keys_sub p s _ hk), h1.2⟩
    · rw [runPrinter]
      rw [List.flatten_cons, List.pairwise_append]
      refine ⟨on_screen_pairwise p s, by simpa using ihPw, ?_⟩
      intro a ha b hb
      have hb' := ihMem b (by simpa using hb)
      have ha' := on_screen_emitted p s a ha
      intro heq
      exact hb'.1 (heq ▸ ha'.2)

/-- Claim C1: across one `TranscriptPrinter` session no two blocks returned by
`on_screen` share a Dedup Key (`transcript_key`: whitespace runs collapsed to
one space, ends trimmed); and a candidate block is emitted exactly when its
key has not been recorded before, the key then being recorded. -/
theorem dedup_at_most_once_per_session :
    (∀ screens : List (List Char),
      (((runPrinter TranscriptPrinter.new screens).2).flatten).Pairwise
        (fun a b => transcript_key a ≠ transcript_key b)) ∧
    (∀ (keys : List (List Char)) (line : List Char),
      ((emitLoop keys [line]).2 = [line] ↔ transcript_key line ∉ keys) ∧
      transcript_key line ∈ (emitLoop keys [line]).1) := by
  constructor
  · intro screens
    exact (runPrinter_spec screens TranscriptPrinter.new).2.2
  · intro keys line
    by_cases hm : transcript_key line ∈ keys
    · simp [emitLoop, hm]
    · simp [emitLoop, hm]

theorem runPrinter_gate_closed (ss : List (List Char)) (p : TranscriptPrinter)
    (hp : p.saw_prompt = false)
    (hs : ∀ s ∈ ss, (extract_chat_area s).prompt_row = none) :
    ∀ out ∈ (runPrinter p ss).2, out = ([] : List (List Char)) := by
  induction ss generalizing p with
  | nil => simp [runPrinter]
  | cons s rest ih =>
    have hnone : (extract_chat_area s).prompt_row = none := hs s (List.mem_cons_self _ _)
    have hsaw : (p.saw_prompt || (extract_chat_area s).prompt_row.isSome) = false := by
      rw [hp, hnone]; rfl
    have hstep : on_screen p s = ({ p with saw_prompt := false }, []) := by
      unfold on_screen
      rw [hsaw]
      simp
    intro out hout
    rw [runPrinter, hstep] at hout
    rcases List.mem_cons.1 hout with rfl | h2
    · rfl
    · exact ih { p with saw_prompt := false } rfl
        (fun s' hs' => hs s' (List.mem_cons_of_mem _ hs')) out h2

/-- Claim C2: while no processed Snapshot has shown a prompt row (every
prompt-marker row being a non-empty row), a fresh `TranscriptPrinter` returns
the empty list on every `on_screen` call. -/
theorem gate_blocks_until_prompt_row (screens : List (List Char))
    (h : ∀ s ∈ screens, (extract_chat_area s).prompt_row = none) :
    (∀ out ∈ (runPrinter TranscriptPrinter.new screens).2, out = ([] : List (List Char))) ∧
    (∀ l : List Char, is_prompt_marker_line l = true → l ≠ []) := by
  refine ⟨runPrinter_gate_closed screens TranscriptPrinter.new rfl h, ?_⟩
  intro l hm he
  rw [he] at hm
  exact absurd hm (by decide)

/-- Claim C2 witness. -/
theorem gate_blocks_until_prompt_row_witness :
    (runPrinter TranscriptPrinter.new ["• hi".data]).2.getD 0 ["x".data] =
      ([] : List (List Char)) ∧
    "›".data ≠ ([] : List Char) := by
  have h := gate_blocks_until_prompt_row ["• hi".data] (by decide)
  exact ⟨h.1 ((runPrinter TranscriptPrinter.new ["• hi".data]).2.getD 0 ["x".data])
    (by decide), h.2 ("›".data) (by decide)⟩

/-- Claim C7: a Snapshot whose text contains the busy phrase
"esc to interrupt" makes `on_screen` return zero blocks, whatever the
printer's state and the rest of the Snapshot. -/
theorem busy_frame_suppressed (p : TranscriptPrinter) (screen : List Char)
    (h : containsStr screen ("esc to interrupt".data) = true) :
    (on_screen p screen).2 = [] := by
  unfold on_screen
  by_cases h1 : (p.saw_prompt || (extract_chat_area screen).prompt_row.isSome) = false
  · simp [h1]
  · simp [h1, h]

/-- Claim C7 witness. -/
theorem busy_frame_suppressed_witness :
    (on_screen ⟨[], true⟩ ("• partial\n◦ Working (1s • esc to interrupt)\n> prompt\n".data)).2 = [] :=
  busy_frame_suppressed ⟨[], true⟩ _ (by decide)

theorem lastPromptIdxAux_isSome (ls : List (List Char)) :
    ∀ i, (lastPromptIdxAux i ls).isSome = ls.any (fun l => is_prompt_marker_line l) := by
  induction ls with
  | nil => intro i; rfl
  | cons l rest ih =>
    intro i
    rw [lastPromptIdxAux]
    cases haux : lastPromptIdxAux (i + 1) rest with
    | some j =>
      have := ih (i + 1)
      rw [haux] at this
      simp only [List.any_cons]
      rw [← this]
      simp
    | none =>
      have := ih (i + 1)
      rw [haux] at this
      simp only [List.any_cons]
      rw [← this]
      by_cases hm : is_prompt_marker_line l = true
      · simp [hm]
      · simp [hm]

theorem prompt_row_isSome_iff (s : List Char) :
    (extract_chat_area s).prompt_row.isSome =
      (rustLines s).any (fun l => is_prompt_marker_line l) := by
  have : (extract_chat_area s).prompt_row = lastPromptIdx (rustLines s) := rfl
  rw [this, lastPromptIdx, lastPromptIdxAux_isSome]

theorem on_screen_saw (p : TranscriptPrinter) (s : List Char) :
    (on_screen p s).1.saw_prompt =
      (p.saw_prompt || (extract_chat_area s).prompt_row.isSome) := by
  unfold on_screen
  by_cases h1 : (p.saw_prompt || (extract_chat_area s).prompt_row.isSome) = false
  · simp [h1]
  · by_cases h2 : containsStr s ("esc to interrupt".data) = true
    · simp [h1, h2]
    · simp [h1, h2]

theorem runPrinter_saw (ss : List (List Char)) (p : TranscriptPrinter) :
    (runPrinter p ss).1.saw_prompt =
      (p.saw_prompt || ss.any (fun s => (extract_chat_area s).prompt_row.isSome)) := by
  induction ss generalizing p with
  | nil => simp [runPrinter]
  | cons s rest ih =>
    rw [runPrinter]
    show (runPrinter (on_screen p s).1 rest).1.saw_prompt = _
    rw [ih, on_screen_saw]
    simp [Bool.or_assoc]

/-- Claim C10: the prompt-seen flag is true exactly when some processed
Snapshot contained a prompt-marker row, it is monotone, and it is set before
the busy-frame check, so a Snapshot containing both a prompt-marker row (even
a bare one) and the busy phrase emits nothing yet opens the gate. -/
theorem prompt_flag_set_before_busy_check :
    (∀ screens : List (List Char),
      ((runPrinter TranscriptPrinter.new screens).1.saw_prompt = true ↔
        ∃ s ∈ screens, ∃ l ∈ rustLines s, is_prompt_marker_line l = true)) ∧
    (∀ (p : TranscriptPrinter) (screens : List (List Char)),
      p.saw_prompt = true → (runPrinter p screens).1.saw_prompt = true) ∧
    (∀ (p : TranscriptPrinter) (screen : List Char),
      (∃ l ∈ rustLines screen, is_prompt_marker_line l = true) →
      containsStr screen ("esc to interrupt".data) = true →
      (on_screen p screen).2 = [] ∧ (on_screen p screen).1.saw_prompt = true) := by
  refine ⟨?_, ?_, ?_⟩
  · intro screens
    rw [runPrinter_saw]
    show (false || _) = true ↔ _
    rw [Bool.false_or, List.any_eq_true]
    constructor
    · rintro ⟨s, hs, hsome⟩
      rw [prompt_row_isSome_iff, List.any_eq_true] at hsome
      exact ⟨s, hs, hsome⟩
    · rintro ⟨s, hs, l, hl, hm⟩
      refine ⟨s, hs, ?_⟩
      rw [prompt_row_isSome_iff, List.any_eq_true]
      exact ⟨l, hl, hm⟩
  · intro p screens hp
    rw [runPrinter_saw, hp, Bool.true_or]
  · intro p screen hmark hbusy
    have hsome : (extract_chat_area screen).prompt_row.isSome = true := by
      rw [prompt_row_isSome_iff, List.any_eq_true]
      exact hmark
    have hsaw : (p.saw_prompt || (extract_chat_area screen).prompt_row.isSome) = true := by
      rw [hsome, Bool.or_true]
    constructor
    · exact busy_frame_suppressed p screen hbusy
    · rw [on_screen_saw, hsaw]

/-- Claim C10 witness: a Snapshot holding only a bare "›" prompt marker and
the busy phrase emits nothing yet opens the gate. -/
theorem prompt_flag_set_before_busy_check_witness :
    (on_screen TranscriptPrinter.new ("›\n◦ Working (1s • esc to interrupt)\n".data)).2 = [] ∧
    (on_screen TranscriptPrinter.new ("›\n◦ Working (1s • esc to interrupt)\n".data)).1.saw_prompt = true :=
  prompt_flag_set_before_busy_check.2.2 TranscriptPrinter.new
    ("›\n◦ Working (1s • esc to interrupt)\n".data) (by decide) (by decide)

/-- Longest common character prefix of two character lists. -/
def commonPrefixL : List Char → List Char → List Char
  | a :: restA, b :: restB => if a = b then a :: commonPrefixL restA restB else []
  | _, _ => []

theorem utf8Len_append (x y : List Char) : utf8Len (x ++ y) = utf8Len x + utf8Len y := by
  induction x with
  | nil => simp [utf8Len]
  | cons c xs ih => simp [utf8Len, ih]; omega

theorem utf8Len_eq_zero (l : List Char) : utf8Len l = 0 ↔ l = [] := by
  cases l with
  | nil => simp [utf8Len]
  | cons c rest =>
    simp only [utf8Len]
    have := Char.utf8Size_pos c
    constructor
    · intro h; omega
    · intro h; exact absurd h (by simp)

theorem cpbiAux_eq (a : List Char) :
    ∀ b n, cpbiAux a b n n = n + utf8Len (commonPrefixL a b) := by
  induction a with
  | nil =>
    intro b n
    cases b <;> simp [cpbiAux, commonPrefixL, utf8Len]
  | cons x xs ih =>
    intro b n
    cases b with
    | nil => simp [cpbiAux, commonPrefixL, utf8Len]
    | cons y ys =>
      by_cases hxy : x = y
      · rw [cpbiAux, if_pos hxy, ih ys (n + y.utf8Size)]
        subst hxy
        simp [commonPrefixL, utf8Len]
        omega
      · rw [cpbiAux, if_neg hxy]
        simp [commonPrefixL, hxy, utf8Len]

theorem common_prefix_byte_index_eq (a b : List Char) :
    common_prefix_byte_index a b = utf8Len (commonPrefixL a b) := by
  rw [common_prefix_byte_index, cpbiAux_eq]
  omega

theorem commonPrefixL_sub_left (a b : List Char) :
    ∃ r, a = commonPrefixL a b ++ r := by
  induction a generalizing b with
  | nil => exact ⟨[], by cases b <;> rfl⟩
  | cons x xs ih =>
    cases b with
    | nil => exact ⟨x :: xs, rfl⟩
    | cons y ys =>
      by_cases hxy : x = y
      · obtain ⟨r, hr⟩ := ih ys
        exact ⟨r, by rw [commonPrefixL, if_pos hxy]; simpa using hr⟩
      · exact ⟨x :: xs, by rw [commonPrefixL, if_neg hxy]; rfl⟩

theorem commonPrefixL_sub_right (a b : List Char) :
    ∃ r, b = commonPrefixL a b ++ r := by
  induction a generalizing b with
  | nil => exact ⟨b, by cases b <;> rfl⟩
  | cons x xs ih =>
    cases b with
    | nil => exact ⟨[], rfl⟩
    | cons y ys =>
      by_cases hxy : x = y
      · obtain ⟨r, hr⟩ := ih ys
        refine ⟨r, ?_⟩
        rw [commonPrefixL, if_pos hxy]
        subst hxy
        simpa using hr
      · exact ⟨y :: ys, by rw [commonPrefixL, if_neg hxy]; rfl⟩

theorem commonPrefixL_self_append (a s : List Char) :
    commonPrefixL a (a ++ s) = a := by
  induction a with
  | nil => cases s <;> rfl
  | cons x xs ih => simp [commonPrefixL, ih]

theorem utf8Len_take_le_cp :
    ∀ (j : Nat) (a b : List Char), a.take j = b.take j →
      utf8Len (a.take j) ≤ utf8Len (commonPrefixL a b) := by
  intro j
  induction j with
  | zero => intro a b _; simp [utf8Len]
  | succ j ih =>
    intro a b h
    cases a with
    | nil => simp [utf8Len]
    | cons x xs =>
      cases b with
      | nil => simp at h
      | cons y ys =>
        simp only [List.take_succ_cons] at h
        injection h with h1 h2
        subst h1
        rw [commonPrefixL, if_pos rfl]
        simp only [List.take_succ_cons, utf8Len]
        exact Nat.add_le_add_left (ih xs ys h2) _

theorem sliceFrom_append (x y : List Char) :
    sliceFrom (x ++ y) (utf8Len x) = some y := by
  induction x with
  | nil => simp [utf8Len, sliceFrom]
  | cons c xs ih =>
    have hpos := Char.utf8Size_pos c
    obtain ⟨k, hk⟩ : ∃ k, c.utf8Size + utf8Len xs = k + 1 :=
      ⟨c.utf8Size + utf8Len xs - 1, by omega⟩
    show sliceFrom (c :: (xs ++ y)) (utf8Len (c :: xs)) = some y
    rw [show utf8Len (c :: xs) = c.utf8Size + utf8Len xs from rfl, hk, sliceFrom]
    rw [if_pos (by omega)]
    have : k + 1 - c.utf8Size = utf8Len xs := by omega
    rw [this, ih]

theorem sliceFrom_of_split (x r l : List Char) (h : l = x ++ r) :
    sliceFrom l (utf8Len x) = some r := by
  rw [h, sliceFrom_append]

theorem cp_full_of_byte_eq (a b : List Char)
    (h : common_prefix_byte_index a b = utf8Len a) : ∃ r, b = a ++ r := by
  obtain ⟨ra, hra⟩ := commonPrefixL_sub_left a b
  obtain ⟨rb, hrb⟩ := commonPrefixL_sub_right a b
  rw [common_prefix_byte_index_eq] at h
  have hlen : utf8Len a = utf8Len (commonPrefixL a b) + utf8Len ra := by
    calc utf8Len a = utf8Len (commonPrefixL a b ++ ra) := by rw [← hra]
    _ = utf8Len (commonPrefixL a b) + utf8Len ra := utf8Len_append _ _
  have hz : utf8Len ra = 0 := by omega
  have hranil : ra = [] := (utf8Len_eq_zero ra).1 hz
  subst hranil
  rw [List.append_nil] at hra
  exact ⟨rb, by rw [hra]; exact hrb⟩

theorem on_chat_text_isSome (e : ChatDeltaEmitter) (t : List Char) :
    (on_chat_text e t).isSome = true := by
  unfold on_chat_text
  by_cases h1 : t = e.prev
  · simp [h1]
  · rw [if_neg h1]
    by_cases h2 : e.prev = []
    · simp [h2]
    · rw [if_neg h2]
      by_cases h3 : common_prefix_byte_index e.prev t = utf8Len e.prev
      · rw [if_pos h3]
        obtain ⟨r, hr⟩ := cp_full_of_byte_eq e.prev t h3
        have hs : sliceFrom t (common_prefix_byte_index e.prev t) = some r := by
          rw [h3]
          exact sliceFrom_of_split e.prev r t hr
        rw [hs]
        rfl
      · rw [if_neg h3]
        simp

theorem on_chat_text_total (e : ChatDeltaEmitter) (t : List Char) :
    on_chat_text e t = some (on_chat_textT e t) := by
  have h := on_chat_text_isSome e t
  cases hx : on_chat_text e t with
  | none => rw [hx] at h; exact absurd h (by simp)
  | some v => rw [on_chat_textT, hx]; rfl

/-- Claim C9: `common_prefix_byte_index` returns the byte length of the common
character prefix — a character boundary of both strings, so the prefixes up to
it are equal and slicing either string there succeeds — the index is maximal
among boundaries with equal prefixes, and `on_chat_text` never panics. -/
theorem common_prefix_byte_index_sound (a b : List Char) (e : ChatDeltaEmitter) (t : List Char) :
    common_prefix_byte_index a b = utf8Len (commonPrefixL a b) ∧
    (∃ r, a = commonPrefixL a b ++ r) ∧
    (∃ r, b = commonPrefixL a b ++ r) ∧
    (sliceFrom a (common_prefix_byte_index a b)).isSome = true ∧
    (sliceFrom b (common_prefix_byte_index a b)).isSome = true ∧
    (∀ j : Nat, a.take j = b.take j →
      utf8Len (a.take j) ≤ common_prefix_byte_index a b) ∧
    on_chat_text e t = some (on_chat_textT e t) := by
  obtain ⟨ra, hra⟩ := commonPrefixL_sub_left a b
  obtain ⟨rb, hrb⟩ := commonPrefixL_sub_right a b
  refine ⟨common_prefix_byte_index_eq a b, ⟨ra, hra⟩, ⟨rb, hrb⟩, ?_, ?_, ?_,
    on_chat_text_total e t⟩
  · rw [common_prefix_byte_index_eq, sliceFrom_of_split (commonPrefixL a b) ra a hra]
    rfl
  · rw [common_prefix_byte_index_eq, sliceFrom_of_split (commonPrefixL a b) rb b hrb]
    rfl
  · intro j hj
    rw [common_prefix_byte_index_eq]
    exact utf8Len_take_le_cp j a b hj

/-- Claim C9 witness. -/
theorem common_prefix_byte_index_sound_witness :
    common_prefix_byte_index ("héllo".data) ("héllp".data) = 5 ∧
    utf8Len (("héllo".data).take 4) ≤ common_prefix_byte_index ("héllo".data) ("héllp".data) ∧
    on_chat_text ChatDeltaEmitter.new ("héllo".data) =
      some (on_chat_textT ChatDeltaEmitter.new ("héllo".data)) := by
  have h := common_prefix_byte_index_sound ("héllo".data) ("héllp".data)
    ChatDeltaEmitter.new ("héllo".data)
  exact ⟨by decide, h.2.2.2.2.2.1 4 (by decide), h.2.2.2.2.2.2⟩

theorem startsWith_self (s : List Char) : startsWith s s = true := by
  have := startsWith_append_left s []
  simpa using this

theorem on_chat_textT_eq (e : ChatDeltaEmitter) (t : List Char)
    (v : ChatDeltaEmitter × ChatDeltaUpdate) (h : on_chat_text e t = some v) :
    on_chat_textT e t = v := by
  rw [on_chat_textT, h]
  rfl

theorem on_chat_textT_nochange (e : ChatDeltaEmitter) :
    on_chat_textT e e.prev =
      ({ e with last_delta_chars := 0 }, ⟨ChatDeltaKind.NoChange, []⟩) := by
  apply on_chat_textT_eq
  unfold on_chat_text
  rw [if_pos rfl]

theorem on_chat_textT_initial (e : ChatDeltaEmitter) (t : List Char)
    (h0 : e.prev = []) (h : t ≠ []) :
    on_chat_textT e t =
      ({ e with prev := t,
                total_emitted_chars := e.total_emitted_chars + t.length,
                last_delta_chars := t.length }, ⟨ChatDeltaKind.Initial, t⟩) := by
  apply on_chat_textT_eq
  unfold on_chat_text
  rw [if_neg (by rw [h0]; exact h), if_pos h0]

theorem on_chat_textT_append (e : ChatDeltaEmitter) (s : List Char)
    (h1 : e.prev ≠ []) (h2 : s ≠ []) :
    on_chat_textT e (e.prev ++ s) =
      ({ e with prev := e.prev ++ s,
                total_emitted_chars := e.total_emitted_chars + s.length,
                last_delta_chars := s.length }, ⟨ChatDeltaKind.Append, s⟩) := by
  apply on_chat_textT_eq
  unfold on_chat_text
  have hne : e.prev ++ s ≠ e.prev := by
    intro heq
    have := congrArg List.length heq
    simp only [List.length_append] at this
    exact h2 (List.length_eq_zero.1 (by omega))
  rw [if_neg hne, if_neg h1]
  have hcp : common_prefix_byte_index e.prev (e.prev ++ s) = utf8Len e.prev := by
    rw [common_prefix_byte_index_eq, commonPrefixL_self_append]
  rw [hcp, if_pos rfl, sliceFrom_append]

theorem on_chat_textT_rewrite (e : ChatDeltaEmitter) (t : List Char)
    (h1 : e.prev ≠ []) (h2 : startsWith t e.prev = false) :
    on_chat_textT e t =
      ({ e with prev := t,
                rewrite_events := e.rewrite_events + 1,
                last_delta_chars := 0 }, ⟨ChatDeltaKind.Rewrite, []⟩) := by
  apply on_chat_textT_eq
  unfold on_chat_text
  have hne : t ≠ e.prev := by
    intro heq
    rw [heq, startsWith_self] at h2
    exact absurd h2 (by simp)
  rw [if_neg hne, if_neg h1]
  have h3 : common_prefix_byte_index e.prev t ≠ utf8Len e.prev := by
    intro heq
    obtain ⟨r, hr⟩ := cp_full_of_byte_eq e.prev t heq
    rw [(startsWith_iff t e.prev).2 ⟨r, hr⟩] at h2
    exact absurd h2 (by simp)
  rw [if_neg h3]

/-- Claim C5 (amended): with a non-empty stored text and an input that neither
equals it nor extends it, `on_chat_text` returns a `Rewrite` with empty delta
and bumps the rewrite counter by exactly one; the stored text is replaced
wholesale on Initial, Append and Rewrite alike, and kept on NoChange. -/
theorem rewrite_detection (e : ChatDeltaEmitter) (t : List Char) :
    (e.prev ≠ [] → t ≠ e.prev → startsWith t e.prev = false →
      (on_chat_textT e t).2.kind = ChatDeltaKind.Rewrite ∧
      (on_chat_textT e t).2.delta = [] ∧
      (on_chat_textT e t).1.rewrite_events = e.rewrite_events + 1 ∧
      (on_chat_textT e t).1.prev = t) ∧
    (t = e.prev →
      (on_chat_textT e t).1.prev = e.prev ∧
      (on_chat_textT e t).1.rewrite_events = e.rewrite_events) := by
  constructor
  · intro h1 _ h3
    rw [on_chat_textT_rewrite e t h1 h3]
    exact ⟨rfl, rfl, rfl, rfl⟩
  · intro h
    subst h
    rw [on_chat_textT_nochange]
    exact ⟨rfl, rfl⟩

/-- Claim C5 witness. -/
theorem rewrite_detection_witness :
    (on_chat_textT ⟨"ab".data, 0, 2, 2⟩ ("x".data)).2.kind = ChatDeltaKind.Rewrite ∧
    (on_chat_textT ⟨"ab".data, 0, 2, 2⟩ ("x".data)).2.delta = [] ∧
    (on_chat_textT ⟨"ab".data, 0, 2, 2⟩ ("x".data)).1.rewrite_events = 0 + 1 ∧
    (on_chat_textT ⟨"ab".data, 0, 2, 2⟩ ("x".data)).1.prev = "x".data :=
  (rewrite_detection ⟨"ab".data, 0, 2, 2⟩ ("x".data)).1 (by decide) (by decide) (by decide)

/-- Claim C5 counterexample: the stored previous text is not kept on a
Rewrite — after `Initial "ab"`, feeding "x" yields a Rewrite and the stored
text becomes "x", so it is not replaced only on Initial/Append. -/
theorem rewrite_replaces_stored_text :
    (on_chat_textT (on_chat_textT ChatDeltaEmitter.new ("ab".data)).1 ("x".data)).2.kind =
      ChatDeltaKind.Rewrite ∧
    (on_chat_textT (on_chat_textT ChatDeltaEmitter.new ("ab".data)).1 ("x".data)).1.prev =
      "x".data ∧
    (on_chat_textT ChatDeltaEmitter.new ("ab".data)).1.prev = "ab".data ∧
    "x".data ≠ "ab".data := by decide

/-- The tail of `chainTexts`: the successive extended texts. -/
def restChain : List Char → List (List Char) → List (List Char)
  | _, [] => []
  | t0, s :: ss => (t0 ++ s) :: restChain (t0 ++ s) ss

theorem chainTexts_eq (t0 : List Char) (sfx : List (List Char)) :
    chainTexts t0 sfx = t0 :: restChain t0 sfx := by
  induction sfx generalizing t0 with
  | nil => rfl
  | cons s ss ih => rw [chainTexts, restChain, ih]

theorem chainTexts_getLast? (t0 : List Char) (sfx : List (List Char)) :
    (chainTexts t0 sfx).getLast? = some (t0 ++ sfx.flatten) := by
  induction sfx generalizing t0 with
  | nil => simp [chainTexts]
  | cons s ss ih =>
    rw [chainTexts, chainTexts_eq (t0 ++ s) ss, List.getLast?_cons_cons,
      ← chainTexts_eq (t0 ++ s) ss, ih]
    simp

theorem runEmitter_appends (sfx : List (List Char)) :
    ∀ e : ChatDeltaEmitter, e.prev ≠ [] → (∀ s ∈ sfx, s ≠ []) →
      ((runEmitter e (restChain e.prev sfx)).2.map (fun u => u.kind) =
        sfx.map (fun _ => ChatDeltaKind.Append)) ∧
      (((runEmitter e (restChain e.prev sfx)).2.map (fun u => u.delta)).flatten =
        sfx.flatten) ∧
      (runEmitter e (restChain e.prev sfx)).1.prev = e.prev ++ sfx.flatten := by
  induction sfx with
  | nil =>
    intro e he _
    refine ⟨rfl, rfl, by simp [restChain, runEmitter]⟩
  | cons s ss ih =>
    intro e he hs
    have hsne : s ≠ [] := hs s (List.mem_cons_self _ _)
    have hstep := on_chat_textT_append e s he hsne
    have hprev : (on_chat_textT e (e.prev ++ s)).1.prev = e.prev ++ s := by rw [hstep]
    have hne2 : (on_chat_textT e (e.prev ++ s)).1.prev ≠ [] := by
      rw [hprev]
      intro hx
      exact he (List.append_eq_nil.1 hx).1
    obtain ⟨ihK, ihD, ihP⟩ :=
      ih (on_chat_textT e (e.prev ++ s)).1 hne2 (fun x hx => hs x (List.mem_cons_of_mem _ hx))
    rw [hprev] at ihK ihD ihP
    have hkind : (on_chat_textT e (e.prev ++ s)).2.kind = ChatDeltaKind.Append := by
      rw [hstep]
    have hdelta : (on_chat_textT e (e.prev ++ s)).2.delta = s := by
      rw [hstep]
    rw [restChain, runEmitter]
    refine ⟨?_, ?_, ?_⟩
    · show ((on_chat_textT e (e.prev ++ s)).2.kind :: _) = _
      rw [hkind, List.map_cons]
      exact congrArg _ ihK
    · show ((on_chat_textT e (e.prev ++ s)).2.delta ++ _) = _
      rw [hdelta, List.flatten_cons]
      exact congrArg _ ihD
    · show (runEmitter (on_chat_textT e (e.prev ++ s)).1 _).1.prev = _
      rw [ihP, List.flatten_cons, List.append_assoc]

/-- Claim C6 (amended): for a chain of texts in which each element extends the
previous by a non-empty suffix and whose first text is non-empty, a fresh
`ChatDeltaEmitter` yields `Initial` then only `Append`s, and the returned
deltas concatenate to the last text of the chain. -/
theorem append_chain_initial_then_appends (t0 : List Char) (sfx : List (List Char))
    (h0 : t0 ≠ []) (hs : ∀ s ∈ sfx, s ≠ []) :
    ((runEmitter ChatDeltaEmitter.new (chainTexts t0 sfx)).2.map (fun u => u.kind) =
      ChatDeltaKind.Initial :: sfx.map (fun _ => ChatDeltaKind.Append)) ∧
    (((runEmitter ChatDeltaEmitter.new (chainTexts t0 sfx)).2.map (fun u => u.delta)).flatten =
      t0 ++ sfx.flatten) ∧
    (chainTexts t0 sfx).getLast? = some (t0 ++ sfx.flatten) := by
  have hstep := on_chat_textT_initial ChatDeltaEmitter.new t0 rfl h0
  have hprev : (on_chat_textT ChatDeltaEmitter.new t0).1.prev = t0 := by rw [hstep]
  obtain ⟨ihK, ihD, _⟩ :=
    runEmitter_appends sfx (on_chat_textT ChatDeltaEmitter.new t0).1 (by rw [hprev]; exact h0) hs
  rw [hprev] at ihK ihD
  have hkind : (on_chat_textT ChatDeltaEmitter.new t0).2.kind = ChatDeltaKind.Initial := by
    rw [hstep]
  have hdelta : (on_chat_textT ChatDeltaEmitter.new t0).2.delta = t0 := by
    rw [hstep]
  refine ⟨?_, ?_, chainTexts_getLast? t0 sfx⟩
  · rw [chainTexts_eq, runEmitter]
    show ((on_chat_textT ChatDeltaEmitter.new t0).2.kind :: _) = _
    rw [hkind]
    exact congrArg _ ihK
  · rw [chainTexts_eq, runEmitter]
    show ((on_chat_textT ChatDeltaEmitter.new t0).2.delta ++ _) = _
    rw [hdelta]
    exact congrArg _ ihD

/-- Claim C6 witness. -/
theorem append_chain_initial_then_appends_witness :
    ((runEmitter ChatDeltaEmitter.new (chainTexts ("a".data) ["b".data, "cd".data])).2.map
      (fun u => u.kind) =
      ChatDeltaKind.Initial :: [ChatDeltaKind.Append, ChatDeltaKind.Append]) ∧
    (((runEmitter ChatDeltaEmitter.new (chainTexts ("a".data) ["b".data, "cd".data])).2.map
      (fun u => u.delta)).flatten = "abcd".data) :=
  have h := append_chain_initial_then_appends ("a".data) ["b".data, "cd".data]
    (by decide) (by decide)
  ⟨h.1, h.2.1⟩

/-- Claim C6 counterexample: the claim fails without the non-emptiness
provisos — the chain with empty first text yields NoChange then Initial, and
the chain "a", "a" (empty suffix) yields Initial then NoChange, never the
claimed Initial-then-Append shape. -/
theorem append_chain_edge_cases :
    chainTexts [] ["a".data] = [[], "a".data] ∧
    (runEmitter ChatDeltaEmitter.new [([] : List Char), "a".data]).2.map (fun u => u.kind) =
      [ChatDeltaKind.NoChange, ChatDeltaKind.Initial] ∧
    chainTexts ("a".data) [[]] = ["a".data, "a".data] ∧
    (runEmitter ChatDeltaEmitter.new ["a".data, "a".data]).2.map (fun u => u.kind) =
      [ChatDeltaKind.Initial, ChatDeltaKind.NoChange] ∧
    ChatDeltaKind.NoChange ≠ ChatDeltaKind.Initial ∧
    ChatDeltaKind.NoChange ≠ ChatDeltaKind.Append := by decide

/-- Whether the (optional) prompt row lies at or above row `i`. -/
def promptAtOrBelow (pr : Option Nat) (i : Nat) : Bool :=
  match pr with
  | some p => decide (p ≤ i)
  | none => false

theorem blankPass_length (pr : Option Nat) :
    ∀ (ls : List (List Char)) (i0 : Nat), (blankPass pr i0 ls).length = ls.length := by
  intro ls
  induction ls with
  | nil => intro i0; rfl
  | cons l rest ih =>
    intro i0
    show (_ :: blankPass pr (i0 + 1) rest).length = (l :: rest).length
    rw [List.length_cons, List.length_cons, ih (i0 + 1)]

theorem blankPass_getElem? (pr : Option Nat) :
    ∀ (ls : List (List Char)) (i0 j : Nat),
      (blankPass pr i0 ls)[j]? = (ls[j]?).map (fun l =>
        if is_ui_noise_line l = true then []
        else
          match pr with
          | some p => if p ≤ i0 + j then [] else l
          | none => l) := by
  intro ls
  induction ls with
  | nil => intro i0 j; rfl
  | cons l rest ih =>
    intro i0 j
    cases j with
    | zero => simp [blankPass]
    | succ j =>
      have hcons : blankPass pr i0 (l :: rest) =
          (if is_ui_noise_line l = true then []
           else
             match pr with
             | some p => if p ≤ i0 then [] else l
             | none => l) :: blankPass pr (i0 + 1) rest := rfl
      rw [hcons, List.getElem?_cons_succ, List.getElem?_cons_succ, ih (i0 + 1) j]
      have harith : i0 + 1 + j = i0 + (j + 1) := by omega
      rw [harith]

theorem mirrorWindow_length (screen : List Char) (rows : Nat) :
    (mirrorWindow screen rows).length = rows := by
  rw [mirrorWindow]
  simp only [List.length_take, List.length_append, List.length_replicate, List.length_map]
  omega

theorem mirrorWindow_getElem?_left (screen : List Char) (rows j : Nat) (l : List Char)
    (hl : (rustLines screen)[j]? = some l) (hj : j < rows) :
    (mirrorWindow screen rows)[j]? = some (rustTrimEnd l) := by
  have hlen : j < ((rustLines screen).map rustTrimEnd).length := by
    rw [List.length_map]
    exact (List.getElem?_eq_some_iff.mp hl).1
  rw [mirrorWindow]
  show ((((rustLines screen).map rustTrimEnd) ++ _).take rows)[j]? = _
  rw [List.getElem?_take_of_lt hj, List.getElem?_append_left hlen, List.getElem?_map, hl]
  rfl

theorem mirrorWindow_getElem?_right (screen : List Char) (rows j : Nat)
    (hge : (rustLines screen).length ≤ j) (hj : j < rows) :
    (mirrorWindow screen rows)[j]? = some [] := by
  have hlen : ((rustLines screen).map rustTrimEnd).length ≤ j := by
    rw [List.length_map]; exact hge
  rw [mirrorWindow]
  show ((((rustLines screen).map rustTrimEnd) ++ _).take rows)[j]? = _
  rw [List.getElem?_take_of_lt hj, List.getElem?_append_right hlen,
    List.getElem?_replicate_of_lt (by simp only [List.length_map] at hlen ⊢; omega)]

/-- Claim C8 (amended): `mirror_assistant_screen` returns exactly `rows` rows;
the prompt row used for blanking is the last prompt-marker row within the
right-trimmed, padded, truncated window of the first `rows` rows (not the
Snapshot's overall prompt row); within range, a source row maps to blank when
it is noise or lies at/below that window prompt row and otherwise to itself
right-trimmed, and rows past the source are blank padding. -/
theorem mirror_fixed_height_blanking (screen : List Char) (rows : Nat) :
    (mirror_assistant_screen screen rows).length = rows ∧
    (∀ (j : Nat) (l : List Char), (rustLines screen)[j]? = some l → j < rows →
      (mirror_assistant_screen screen rows)[j]? =
        some (if is_ui_noise_line (rustTrimEnd l) = true ∨
                promptAtOrBelow (lastPromptIdx (mirrorWindow screen rows)) j = true
              then [] else rustTrimEnd l)) ∧
    (∀ j : Nat, (rustLines screen).length ≤ j → j < rows →
      (mirror_assistant_screen screen rows)[j]? = some []) := by
  refine ⟨?_, ?_, ?_⟩
  · rw [mirror_assistant_screen, blankPass_length, mirrorWindow_length]
  · intro j l hl hj
    rw [mirror_assistant_screen, blankPass_getElem?,
      mirrorWindow_getElem?_left screen rows j l hl hj]
    show some _ = some _
    rw [Nat.zero_add]
    cases hpr : lastPromptIdx (mirrorWindow screen rows) with
    | none =>
      by_cases hn : is_ui_noise_line (rustTrimEnd l) = true
      · simp [hn, promptAtOrBelow]
      · simp [hn, promptAtOrBelow]
    | some p =>
      by_cases hn : is_ui_noise_line (rustTrimEnd l) = true
      · simp [hn, promptAtOrBelow]
      · by_cases hp : p ≤ j
        · simp [hn, hp, promptAtOrBelow]
        · simp [hn, hp, promptAtOrBelow]
  · intro j hge hj
    rw [mirror_assistant_screen, blankPass_getElem?,
      mirrorWindow_getElem?_right screen rows j hge hj]
    show some _ = some _
    cases lastPromptIdx (mirrorWindow screen rows) with
    | none => simp
    | some p => simp

/-- Claim C8 counterexample: with rows `["a", "> x", "b", "> y"]` and R = 3 the
Snapshot's prompt row is index 3, which is truncated away; the claim then
requires row 1 (`"> x"`, not noise, above the Snapshot's prompt row) to be kept
verbatim, but the code blanks it, because it recomputes the prompt row inside
the truncated window. -/
theorem mirror_truncated_prompt_row :
    mirror_assistant_screen ("a\n> x\nb\n> y".data) 3 = ["a".data, [], []] ∧
    lastPromptIdx (rustLines ("a\n> x\nb\n> y".data)) = some 3 ∧
    is_ui_noise_line ("> x".data) = false ∧
    "> x".data ≠ ([] : List Char) := by decide

/-- Claim C8 witness. -/
theorem mirror_fixed_height_blanking_witness :
    (mirror_assistant_screen ("Hello\n> x".data) 3).length = 3 ∧
    (mirror_assistant_screen ("Hello\n> x".data) 3)[0]? = some ("Hello".data) ∧
    (mirror_assistant_screen ("Hello\n> x".data) 3)[2]? = some [] := by
  have h := mirror_fixed_height_blanking ("Hello\n> x".data) 3
  refine ⟨h.1, ?_, h.2.2 2 (by decide) (by decide)⟩
  have h2 := h.2.1 0 ("Hello".data) (by decide) (by decide)
  rw [h2]
  decide

theorem dropWhile_idem (p : Char → Bool) (s : List Char) :
    (s.dropWhile p).dropWhile p = s.dropWhile p := by
  induction s with
  | nil => rfl
  | cons c r ih =>
    by_cases h : p c = true
    · simp [List.dropWhile_cons, h, ih]
    · simp [List.dropWhile_cons, h]

theorem rustTrimStart_idem (s : List Char) :
    rustTrimStart (rustTrimStart s) = rustTrimStart s :=
  dropWhile_idem _ s

theorem rustTrimEnd_cons_not_ws (c : Char) (x : List Char)
    (h : rustIsWhitespace c = false) :
    rustTrimEnd (c :: x) = c :: rustTrimEnd x := by
  rw [rustTrimEnd]
  simp [h]

theorem rustTrimEnd_idem (s : List Char) :
    rustTrimEnd (rustTrimEnd s) = rustTrimEnd s := by
  induction s with
  | nil => rfl
  | cons c r ih =>
    rw [rustTrimEnd]
    by_cases h : rustTrimEnd r = [] ∧ rustIsWhitespace c = true
    · rw [if_pos h]
      rfl
    · rw [if_neg h]
      show rustTrimEnd (c :: rustTrimEnd r) = _
      rw [rustTrimEnd, ih]
      rw [if_neg h]

theorem rustTrimStart_cons_ws (c : Char) (r : List Char)
    (hw : rustIsWhitespace c = true) :
    rustTrimStart (c :: r) = rustTrimStart r := by
  rw [rustTrimStart, List.dropWhile_cons, if_pos hw]
  rfl

theorem rustTrimStart_cons_not_ws (c : Char) (r : List Char)
    (hw : rustIsWhitespace c = false) :
    rustTrimStart (c :: r) = c :: r := by
  rw [rustTrimStart, List.dropWhile_cons, if_neg (by simp [hw])]

theorem trimEnd_trimStart_comm (s : List Char) :
    rustTrimEnd (rustTrimStart s) = rustTrimStart (rustTrimEnd s) := by
  induction s with
  | nil => rfl
  | cons c r ih =>
    by_cases hw : rustIsWhitespace c = true
    · rw [rustTrimStart_cons_ws c r hw, ih]
      by_cases hz : rustTrimEnd r = []
      · have hrhs : rustTrimEnd (c :: r) = [] := by
          rw [rustTrimEnd]
          simp [hz, hw]
        rw [hrhs, hz]
      · have hrhs : rustTrimEnd (c :: r) = c :: rustTrimEnd r := by
          rw [rustTrimEnd]
          simp [hz]
        rw [hrhs, rustTrimStart_cons_ws c _ hw]
    · have hw' : rustIsWhitespace c = false := by
        revert hw; cases rustIsWhitespace c <;> simp
      rw [rustTrimStart_cons_not_ws c r hw', rustTrimEnd_cons_not_ws c r hw',
        rustTrimStart_cons_not_ws c _ hw']

theorem rustTrim_eq_start_of_end (s : List Char) :
    rustTrim s = rustTrimEnd (rustTrimStart s) := by
  rw [rustTrim, trimEnd_trimStart_comm]

theorem rustTrim_idem (s : List Char) : rustTrim (rustTrim s) = rustTrim s := by
  rw [rustTrim, rustTrim, trimEnd_trimStart_comm (rustTrimEnd s), rustTrimEnd_idem]
  exact rustTrimStart_idem _

theorem rustTrim_cons_not_ws (c : Char) (x : List Char)
    (h : rustIsWhitespace c = false) :
    rustTrim (c :: x) = c :: rustTrimEnd x := by
  rw [rustTrim, rustTrimEnd_cons_not_ws c x h, rustTrimStart, List.dropWhile_cons]
  rw [if_neg (by simp [h])]

theorem rustTrim_strip_hanging (c : List Char) :
    rustTrim (strip_hanging_indent c) = rustTrim c := by
  rw [strip_hanging_indent]
  by_cases h : startsWith c ("  ".data) = true
  · rw [if_pos h]
    obtain ⟨r, hr⟩ := (startsWith_iff c ("  ".data)).1 h
    rw [hr]
    show rustTrim r = rustTrim (' ' :: ' ' :: r)
    rw [rustTrim_eq_start_of_end, rustTrim_eq_start_of_end (' ' :: ' ' :: r)]
    rw [rustTrimStart, rustTrimStart, List.dropWhile_cons, if_pos (by decide),
      List.dropWhile_cons, if_pos (by decide)]
  · rw [if_neg h]

theorem extractLoopF_zero (pr : Option Nat) (i : Nat) (ls : List (List Char)) :
    extractLoopF 0 pr i ls = [] := rfl

theorem extractLoopF_nil (n : Nat) (pr : Option Nat) (i : Nat) :
    extractLoopF n pr i [] = [] := by
  cases n <;> rfl

theorem collectCont_nil (bt si : Bool) (msg : List (List Char)) (p : Bool) :
    collectCont bt si [] msg p = (msg, []) := rfl

theorem collectCont_cons (bt si : Bool) (l : List Char) (rest : List (List Char))
    (msg : List (List Char)) (p : Bool) :
    collectCont bt si (l :: rest) msg p =
      (if rustTrim (rustTrimEnd l) = [] then collectCont bt si rest msg true
       else if (bt = true ∧ startsWith (rustTrimStart (rustTrimEnd l)) ("Tip:".data) = true) ∨
               is_system_notice_line (rustTrimStart (rustTrimEnd l)) = true ∨
               startsWith (rustTrimEnd l) ("• ".data) = true ∨
               startsWith (rustTrimEnd l) ("> ".data) = true ∨
               rustTrimEnd l = ">".data ∨
               startsWith (rustTrimEnd l) ("› ".data) = true ∨
               rustTrimEnd l = "›".data then (msg, l :: rest)
       else if is_ui_noise_line (rustTrimEnd l) = true then (msg, l :: rest)
       else
         collectCont bt si rest
           ((if p then msg ++ [[]] else msg) ++
            [if si = true then strip_hanging_indent (rustTrimEnd l) else rustTrimEnd l]) false) := rfl

theorem extractLoopF_cons (n : Nat) (pr : Option Nat) (i : Nat) (l : List Char)
    (rest : List (List Char)) :
    extractLoopF (n + 1) pr i (l :: rest) =
      (if rustTrim (rustTrim l) = [] then extractLoopF n pr (i + 1) rest
       else if is_ui_noise_line (rustTrimEnd l) = true then extractLoopF n pr (i + 1) rest
       else if is_system_notice_line (rustTrim l) = true then
         joinNl (trimTrailingBlanks
             (collectCont true true rest ["system: ".data ++ rustTrim (rustTrim l)] false).1) ::
           extractLoopF n pr
             (i + 1 + (rest.length -
               (collectCont true true rest ["system: ".data ++ rustTrim (rustTrim l)] false).2.length))
             (collectCont true true rest ["system: ".data ++ rustTrim (rustTrim l)] false).2
       else if startsWith (rustTrim (rustTrim l)) ("Tip:".data) = true then
         joinNl (trimTrailingBlanks
             (collectCont true false rest ["system: ".data ++ rustTrim (rustTrim l)] false).1) ::
           extractLoopF n pr
             (i + 1 + (rest.length -
               (collectCont true false rest ["system: ".data ++ rustTrim (rustTrim l)] false).2.length))
             (collectCont true false rest ["system: ".data ++ rustTrim (rustTrim l)] false).2
       else if is_prompt_marker_line (rustTrimEnd l) = true ∧ pr = some i then
         extractLoopF n pr (i + 1) rest
       else if is_prompt_marker_line (rustTrimEnd l) = true then
         (if rustTrim (rustTrimEnd ((strip_prompt_marker (rustTrimEnd l)).getD (rustTrimEnd l))) = [] then
            extractLoopF n pr (i + 1) rest
          else
            joinNl (trimTrailingBlanks
                (collectCont false true rest
                  ["user: ".data ++
                    rustTrimEnd ((strip_prompt_marker (rustTrimEnd l)).getD (rustTrimEnd l))] false).1) ::
              extractLoopF n pr
                (i + 1 + (rest.length -
                  (collectCont false true rest
                    ["user: ".data ++
                      rustTrimEnd ((strip_prompt_marker (rustTrimEnd l)).getD (rustTrimEnd l))] false).2.length))
                (collectCont false true rest
                  ["user: ".data ++
                    rustTrimEnd ((strip_prompt_marker (rustTrimEnd l)).getD (rustTrimEnd l))] false).2)
       else if startsWith (rustTrimEnd l) ("• ".data) = true then
         (if containsStr (rustTrim (rustTrim l)) ("Working".data) = true ∨
             containsStr (rustTrim (rustTrim l)) ("esc to interrupt".data) = true then
            extractLoopF n pr (i + 1) rest
          else
            joinNl (trimTrailingBlanks
                (collectCont false true rest
                  ["assistant: ".data ++
                    (if startsWith (rustTrimEnd l) ("• ".data) = true
                     then (rustTrimEnd l).drop 2 else rustTrimEnd l)] false).1) ::
              extractLoopF n pr
                (i + 1 + (rest.length -
                  (collectCont false true rest
                    ["assistant: ".data ++
                      (if startsWith (rustTrimEnd l) ("• ".data) = true
                       then (rustTrimEnd l).drop 2 else rustTrimEnd l)] false).2.length))
                (collectCont false true rest
                  ["assistant: ".data ++
                    (if startsWith (rustTrimEnd l) ("• ".data) = true
                     then (rustTrimEnd l).drop 2 else rustTrimEnd l)] false).2)
       else extractLoopF n pr (i + 1) rest) := rfl

theorem joinNl_single (x : List Char) : joinNl [x] = x := rfl

theorem joinNl_pair (a b : List Char) : joinNl [a, b] = a ++ '\n' :: b := rfl

theorem trimTrailingBlanks_single (x : List Char) (h : rustTrim x ≠ []) :
    trimTrailingBlanks [x] = [x] := by
  have hp : (rustTrim x).isEmpty = false := by
    cases hx : rustTrim x with
    | nil => exact absurd hx h
    | cons a b => rfl
  rw [trimTrailingBlanks]
  simp [hp]

theorem trimTrailingBlanks_pair (a b : List Char) (h : rustTrim b ≠ []) :
    trimTrailingBlanks [a, b] = [a, b] := by
  have hp : (rustTrim b).isEmpty = false := by
    cases hx : rustTrim b with
    | nil => exact absurd hx h
    | cons x y => rfl
  rw [trimTrailingBlanks]
  simp [hp]

theorem startsWith_head_ne (c d : Char) (x y : List Char) (h : c ≠ d) :
    startsWith (c :: x) (d :: y) = false := by
  rw [startsWith, if_neg h]

theorem rustTrim_label_ne (c : Char) (x : List Char) (h : rustIsWhitespace c = false) :
    rustTrim (c :: x) ≠ [] := by
  rw [rustTrim_cons_not_ws c x h]
  exact List.cons_ne_nil _ _

theorem lastPromptIdx_single (row : List Char) :
    lastPromptIdx [row] =
      if is_prompt_marker_line row = true then some 0 else none := rfl

theorem lastPromptIdx_three_marker (a b : List Char) :
    lastPromptIdx [a, b, ">".data] = some 2 := rfl

/-- The amended C3 opener condition, written out flat: a trimmed row starting
with "Tip:", or a trimmed row starting with none of "Tip:", "> ", ">", "› ",
"›", "• " that either starts with the warning glyph "⚠" (with no further
requirement) or contains "Heads up," within its first 5 bytes together with
"weekly limit", "/status" or a percent sign. -/
def system_opener_amended (row : List Char) : Bool :=
  startsWith (rustTrim row) ("Tip:".data) ||
  (!(startsWith (rustTrim row) ("Tip:".data) ||
     startsWith (rustTrim row) ("> ".data) ||
     decide (rustTrim row = ">".data) ||
     startsWith (rustTrim row) ("› ".data) ||
     decide (rustTrim row = "›".data) ||
     startsWith (rustTrim row) ("• ".data)) &&
   (startsWith (rustTrim row) ("⚠".data) ||
    (match findSub (rustTrim row) ("Heads up,".data) with
     | some idx =>
       decide (idx ≤ 4) &&
       (containsStr (rustTrim row) ("weekly limit".data) ||
        containsStr (rustTrim row) ("/status".data) ||
        containsStr (rustTrim row) ("%".data))
     | none => false)))

theorem system_opener_amended_eq (row : List Char) :
    system_opener_amended row =
      (startsWith (rustTrim row) ("Tip:".data) ||
       is_system_notice_line (rustTrim row)) := by
  rw [system_opener_amended, is_system_notice_line.eq_def, rustTrim_idem]
  cases h1 : startsWith (rustTrim row) ("Tip:".data) <;>
  cases h2 : startsWith (rustTrim row) ("> ".data) <;>
  cases h4 : startsWith (rustTrim row) ("› ".data) <;>
  cases h6 : startsWith (rustTrim row) ("• ".data) <;>
  by_cases h3 : rustTrim row = ">".data <;>
  by_cases h5 : rustTrim row = "›".data <;>
  simp [h1, h2, h3, h4, h5, h6]

theorem pairFst (x y : List (List Char)) : (Prod.mk x y).1 = x := rfl

/-- Claim C3 (amended): within `extract_transcript_candidates` a non-blank,
non-noise row opens a system-role block exactly when `system_opener_amended`
holds of it — "Tip:" rows, or warning rows where the "⚠" glyph alone suffices,
or glyph-less "Heads up," rows near the line start with a limit/quota keyword,
slash-command or percent sign. -/
theorem system_opener_iff (row : List Char)
    (hnl : '\n' ∉ row)
    (hblank : rustTrim row ≠ [])
    (hnoise : is_ui_noise_line (rustTrimEnd row) = false) :
    (extract_transcript_candidates row).any (fun b => startsWith b ("system: ".data)) =
      system_opener_amended row := by
  have hrow : row ≠ [] := fun h => hblank (by rw [h]; rfl)
  have hl : rustLines row = [row] := rustLines_single row hnl hrow
  have he : extract_transcript_candidates row =
      extractLoopF (rustLines row).length (lastPromptIdx (rustLines row)) 0 (rustLines row) := rfl
  rw [he, hl]
  show (extractLoopF (0 + 1) (lastPromptIdx [row]) 0 [row]).any
      (fun b => startsWith b ("system: ".data)) = system_opener_amended row
  rw [extractLoopF_cons, rustTrim_idem, system_opener_amended_eq]
  rw [if_neg hblank, if_neg (by rw [hnoise]; simp)]
  cases hsn : is_system_notice_line (rustTrim row) with
  | true =>
    rw [if_pos rfl, collectCont_nil, extractLoopF_zero, pairFst]
    have httb : trimTrailingBlanks ["system: ".data ++ rustTrim row] =
        ["system: ".data ++ rustTrim row] :=
      trimTrailingBlanks_single _ (rustTrim_label_ne 's' _ (by decide))
    rw [httb, joinNl_single]
    simp only [List.any_cons, List.any_nil, startsWith_append_left, Bool.or_false, Bool.or_true]
  | false =>
    rw [if_neg (by simp)]
    cases htip : startsWith (rustTrim row) ("Tip:".data) with
    | true =>
      rw [if_pos rfl, collectCont_nil, extractLoopF_zero, pairFst]
      have httb : trimTrailingBlanks ["system: ".data ++ rustTrim row] =
          ["system: ".data ++ rustTrim row] :=
        trimTrailingBlanks_single _ (rustTrim_label_ne 's' _ (by decide))
      rw [httb, joinNl_single]
      simp only [List.any_cons, List.any_nil, startsWith_append_left, Bool.or_false, Bool.or_true]
    | false =>
      rw [if_neg (by simp)]
      cases hm : is_prompt_marker_line (rustTrimEnd row) with
      | false =>
        rw [if_neg (by simp), if_neg (by simp)]
        cases hb : startsWith (rustTrimEnd row) ("• ".data) with
        | false =>
          rw [if_neg (by simp), extractLoopF_zero]
          simp
        | true =>
          rw [if_pos rfl]
          by_cases hwork : containsStr (rustTrim row) ("Working".data) = true ∨
              containsStr (rustTrim row) ("esc to interrupt".data) = true
          · rw [if_pos hwork, extractLoopF_zero]
            simp
          · rw [if_neg hwork, collectCont_nil, extractLoopF_zero, if_pos rfl, pairFst]
            have httb : trimTrailingBlanks ["assistant: ".data ++ List.drop 2 (rustTrimEnd row)] =
                ["assistant: ".data ++ List.drop 2 (rustTrimEnd row)] :=
              trimTrailingBlanks_single _ (rustTrim_label_ne 'a' _ (by decide))
            have hfa : startsWith ("assistant: ".data ++ List.drop 2 (rustTrimEnd row))
                ("system: ".data) = false := startsWith_head_ne _ _ _ _ (by decide)
            rw [httb, joinNl_single]
            simp only [List.any_cons, List.any_nil, hfa, Bool.or_false]
      | true =>
        cases hpm : is_prompt_marker_line row with
        | true =>
          have hpr : lastPromptIdx [row] = some 0 := by
            rw [lastPromptIdx_single, if_pos hpm]
          rw [if_pos ⟨rfl, hpr⟩, extractLoopF_zero]
          simp
        | false =>
          have hpr : lastPromptIdx [row] = none := by
            rw [lastPromptIdx_single, if_neg (by simp [hpm])]
          rw [if_neg (fun hand => Option.noConfusion (hpr ▸ hand.2)), if_pos rfl]
          by_cases hc : rustTrim (rustTrimEnd
              ((strip_prompt_marker (rustTrimEnd row)).getD (rustTrimEnd row))) = []
          · rw [if_pos hc, extractLoopF_zero]
            simp
          · rw [if_neg hc, collectCont_nil, extractLoopF_zero, pairFst]
            have httb : trimTrailingBlanks
                ["user: ".data ++ rustTrimEnd
                  ((strip_prompt_marker (rustTrimEnd row)).getD (rustTrimEnd row))] =
                ["user: ".data ++ rustTrimEnd
                  ((strip_prompt_marker (rustTrimEnd row)).getD (rustTrimEnd row))] :=
              trimTrailingBlanks_single _ (rustTrim_label_ne 'u' _ (by decide))
            have hfu : startsWith
                ("user: ".data ++ rustTrimEnd
                  ((strip_prompt_marker (rustTrimEnd row)).getD (rustTrimEnd row)))
                ("system: ".data) = false := startsWith_head_ne _ _ _ _ (by decide)
            rw [httb, joinNl_single]
            simp only [List.any_cons, List.any_nil, hfu, Bool.or_false]

/-- Claim C3 witness. -/
theorem system_opener_iff_witness :
    (extract_transcript_candidates ("⚠ melted".data)).any
      (fun b => startsWith b ("system: ".data)) =
      system_opener_amended ("⚠ melted".data) :=
  system_opener_iff ("⚠ melted".data) (by decide) (by decide) (by decide)

/-- Claim C3 counterexample: a row starting with the warning glyph but with no
"Heads up," phrase and no limit/slash/percent keyword still opens a
system-role block, so the claimed condition is not necessary. -/
theorem warning_glyph_alone_opens_system :
    extract_transcript_candidates ("⚠ hello".data) = ["system: ⚠ hello".data] ∧
    startsWith (rustTrim ("⚠ hello".data)) ("Tip:".data) = false ∧
    containsStr ("⚠ hello".data) ("Heads up,".data) = false := by decide

theorem pairSnd (x y : List (List Char)) : (Prod.mk x y).2 = y := rfl

theorem rustLines_three (a b c : List Char)
    (ha : '\n' ∉ a) (hb : '\n' ∉ b) (hc : '\n' ∉ c)
    (hra : '\r' ∉ a) (hrb : '\r' ∉ b) (hcne : c ≠ []) :
    rustLines (a ++ '\n' :: (b ++ '\n' :: c)) = [a, b, c] := by
  unfold rustLines
  rw [splitNl_append a _ ha, splitNl_append b c hb, splitNl_no_nl c hc]
  simp [hcne, stripCR_no_cr a hra, stripCR_no_cr b hrb]

theorem collectCont_cont_then_gt (bt si : Bool) (cont : List Char)
    (msg : List (List Char))
    (h1 : rustTrimEnd cont = cont) (h2 : rustTrim cont ≠ [])
    (h5 : startsWith (rustTrimStart cont) ("Tip:".data) = false)
    (h6 : is_system_notice_line (rustTrimStart cont) = false)
    (h7 : startsWith cont ("• ".data) = false)
    (h8 : startsWith cont ("> ".data) = false)
    (h9 : cont ≠ ">".data)
    (h10 : startsWith cont ("› ".data) = false)
    (h11 : cont ≠ "›".data)
    (h12 : is_ui_noise_line cont = false) :
    collectCont bt si [cont, ">".data] msg false =
      (msg ++ [if si = true then strip_hanging_indent cont else cont], [">".data]) := by
  rw [collectCont_cons, h1]
  rw [if_neg h2]
  rw [if_neg (by simp [h5, h6, h7, h8, h9, h10, h11])]
  rw [if_neg (by simp [h12])]
  rw [if_neg (by decide)]
  rw [collectCont_cons]
  rw [if_neg (by decide)]
  rw [if_pos (Or.inr (Or.inr (Or.inr (Or.inr (Or.inl (by decide))))))]

theorem extractLoopF_tail_gt (pr : Option Nat) (i : Nat) :
    extractLoopF 2 pr i [">".data] = [] := by
  show extractLoopF (1 + 1) pr i [">".data] = []
  rw [extractLoopF_cons]
  rw [if_neg (by decide), if_neg (by decide), if_neg (by decide), if_neg (by decide)]
  by_cases hp : pr = some i
  · rw [if_pos ⟨by decide, hp⟩, extractLoopF_nil]
  · rw [if_neg (fun hand => hp hand.2), if_pos (by decide), if_pos (by decide), extractLoopF_nil]

theorem user_block_two_rows (cont : List Char)
    (h1 : rustTrimEnd cont = cont) (h2 : rustTrim cont ≠ [])
    (h3 : '\n' ∉ cont) (h4 : '\r' ∉ cont)
    (h5 : startsWith (rustTrimStart cont) ("Tip:".data) = false)
    (h6 : is_system_notice_line (rustTrimStart cont) = false)
    (h7 : startsWith cont ("• ".data) = false)
    (h8 : startsWith cont ("> ".data) = false)
    (h9 : cont ≠ ">".data)
    (h10 : startsWith cont ("› ".data) = false)
    (h11 : cont ≠ "›".data)
    (h12 : is_ui_noise_line cont = false) :
    extract_transcript_candidates ("> hi".data ++ '\n' :: (cont ++ '\n' :: ">".data)) =
      ["user: hi".data ++ '\n' :: strip_hanging_indent cont] := by
  have hl : rustLines ("> hi".data ++ '\n' :: (cont ++ '\n' :: ">".data)) =
      ["> hi".data, cont, ">".data] :=
    rustLines_three _ _ _ (by decide) h3 (by decide) (by decide) h4 (by decide)
  have he : extract_transcript_candidates ("> hi".data ++ '\n' :: (cont ++ '\n' :: ">".data)) =
      extractLoopF (rustLines ("> hi".data ++ '\n' :: (cont ++ '\n' :: ">".data))).length
        (lastPromptIdx (rustLines ("> hi".data ++ '\n' :: (cont ++ '\n' :: ">".data)))) 0
        (rustLines ("> hi".data ++ '\n' :: (cont ++ '\n' :: ">".data))) := rfl
  rw [he, hl, lastPromptIdx_three_marker]
  show extractLoopF (2 + 1) (some 2) 0 ("> hi".data :: cont :: [">".data]) =
    ["user: hi".data ++ '\n' :: strip_hanging_indent cont]
  rw [extractLoopF_cons]
  rw [if_neg (by decide), if_neg (by decide), if_neg (by decide), if_neg (by decide),
    if_neg (by decide), if_pos (by decide), if_neg (by decide)]
  rw [show ("user: ".data ++
      rustTrimEnd ((strip_prompt_marker (rustTrimEnd ("> hi".data))).getD
        (rustTrimEnd ("> hi".data)))) = "user: hi".data from by decide]
  rw [collectCont_cont_then_gt false true cont ["user: hi".data]
    h1 h2 h5 h6 h7 h8 h9 h10 h11 h12]
  rw [pairFst, pairSnd, if_pos rfl, extractLoopF_tail_gt]
  have hnb : rustTrim (strip_hanging_indent cont) ≠ [] := by
    rw [rustTrim_strip_hanging]
    exact h2
  rw [List.singleton_append, trimTrailingBlanks_pair _ _ hnb, joinNl_pair]

theorem assistant_block_two_rows (cont : List Char)
    (h1 : rustTrimEnd cont = cont) (h2 : rustTrim cont ≠ [])
    (h3 : '\n' ∉ cont) (h4 : '\r' ∉ cont)
    (h5 : startsWith (rustTrimStart cont) ("Tip:".data) = false)
    (h6 : is_system_notice_line (rustTrimStart cont) = false)
    (h7 : startsWith cont ("• ".data) = false)
    (h8 : startsWith cont ("> ".data) = false)
    (h9 : cont ≠ ">".data)
    (h10 : startsWith cont ("› ".data) = false)
    (h11 : cont ≠ "›".data)
    (h12 : is_ui_noise_line cont = false) :
    extract_transcript_candidates ("• hi".data ++ '\n' :: (cont ++ '\n' :: ">".data)) =
      ["assistant: hi".data ++ '\n' :: strip_hanging_indent cont] := by
  have hl : rustLines ("• hi".data ++ '\n' :: (cont ++ '\n' :: ">".data)) =
      ["• hi".data, cont, ">".data] :=
    rustLines_three _ _ _ (by decide) h3 (by decide) (by decide) h4 (by decide)
  have he : extract_transcript_candidates ("• hi".data ++ '\n' :: (cont ++ '\n' :: ">".data)) =
      extractLoopF (rustLines ("• hi".data ++ '\n' :: (cont ++ '\n' :: ">".data))).length
        (lastPromptIdx (rustLines ("• hi".data ++ '\n' :: (cont ++ '\n' :: ">".data)))) 0
        (rustLines ("• hi".data ++ '\n' :: (cont ++ '\n' :: ">".data))) := rfl
  rw [he, hl, lastPromptIdx_three_marker]
  show extractLoopF (2 + 1) (some 2) 0 ("• hi".data :: cont :: [">".data]) =
    ["assistant: hi".data ++ '\n' :: strip_hanging_indent cont]
  rw [extractLoopF_cons]
  rw [if_neg (by decide), if_neg (by decide), if_neg (by decide), if_neg (by decide),
    if_neg (by decide), if_neg (by decide), if_pos (by decide), if_neg (by decide)]
  rw [show ("assistant: ".data ++
      (if startsWith (rustTrimEnd ("• hi".data)) ("• ".data) = true
       then (rustTrimEnd ("• hi".data)).drop 2 else rustTrimEnd ("• hi".data))) =
      "assistant: hi".data from by decide]
  rw [collectCont_cont_then_gt false true cont ["assistant: hi".data]
    h1 h2 h5 h6 h7 h8 h9 h10 h11 h12]
  rw [pairFst, pairSnd, if_pos rfl, extractLoopF_tail_gt]
  have hnb : rustTrim (strip_hanging_indent cont) ≠ [] := by
    rw [rustTrim_strip_hanging]
    exact h2
  rw [List.singleton_append, trimTrailingBlanks_pair _ _ hnb, joinNl_pair]

theorem system_block_two_rows (cont : List Char)
    (h1 : rustTrimEnd cont = cont) (h2 : rustTrim cont ≠ [])
    (h3 : '\n' ∉ cont) (h4 : '\r' ∉ cont)
    (h5 : startsWith (rustTrimStart cont) ("Tip:".data) = false)
    (h6 : is_system_notice_line (rustTrimStart cont) = false)
    (h7 : startsWith cont ("• ".data) = false)
    (h8 : startsWith cont ("> ".data) = false)
    (h9 : cont ≠ ">".data)
    (h10 : startsWith cont ("› ".data) = false)
    (h11 : cont ≠ "›".data)
    (h12 : is_ui_noise_line cont = false) :
    extract_transcript_candidates ("⚠ hi".data ++ '\n' :: (cont ++ '\n' :: ">".data)) =
      ["system: ⚠ hi".data ++ '\n' :: strip_hanging_indent cont] := by
  have hl : rustLines ("⚠ hi".data ++ '\n' :: (cont ++ '\n' :: ">".data)) =
      ["⚠ hi".data, cont, ">".data] :=
    rustLines_three _ _ _ (by decide) h3 (by decide) (by decide) h4 (by decide)
  have he : extract_transcript_candidates ("⚠ hi".data ++ '\n' :: (cont ++ '\n' :: ">".data)) =
      extractLoopF (rustLines ("⚠ hi".data ++ '\n' :: (cont ++ '\n' :: ">".data))).length
        (lastPromptIdx (rustLines ("⚠ hi".data ++ '\n' :: (cont ++ '\n' :: ">".data)))) 0
        (rustLines ("⚠ hi".data ++ '\n' :: (cont ++ '\n' :: ">".data))) := rfl
  rw [he, hl, lastPromptIdx_three_marker]
  show extractLoopF (2 + 1) (some 2) 0 ("⚠ hi".data :: cont :: [">".data]) =
    ["system: ⚠ hi".data ++ '\n' :: strip_hanging_indent cont]
  rw [extractLoopF_cons]
  rw [if_neg (by decide), if_neg (by decide), if_pos (by decide)]
  rw [show ("system: ".data ++ rustTrim (rustTrim ("⚠ hi".data))) =
      "system: ⚠ hi".data from by decide]
  rw [collectCont_cont_then_gt true true cont ["system: ⚠ hi".data]
    h1 h2 h5 h6 h7 h8 h9 h10 h11 h12]
  rw [pairFst, pairSnd, if_pos rfl, extractLoopF_tail_gt]
  have hnb : rustTrim (strip_hanging_indent cont) ≠ [] := by
    rw [rustTrim_strip_hanging]
    exact h2
  rw [List.singleton_append, trimTrailingBlanks_pair _ _ hnb, joinNl_pair]

theorem tip_block_two_rows (cont : List Char)
    (h1 : rustTrimEnd cont = cont) (h2 : rustTrim cont ≠ [])
    (h3 : '\n' ∉ cont) (h4 : '\r' ∉ cont)
    (h5 : startsWith (rustTrimStart cont) ("Tip:".data) = false)
    (h6 : is_system_notice_line (rustTrimStart cont) = false)
    (h7 : startsWith cont ("• ".data) = false)
    (h8 : startsWith cont ("> ".data) = false)
    (h9 : cont ≠ ">".data)
    (h10 : startsWith cont ("› ".data) = false)
    (h11 : cont ≠ "›".data)
    (h12 : is_ui_noise_line cont = false) :
    extract_transcript_candidates ("Tip: hi".data ++ '\n' :: (cont ++ '\n' :: ">".data)) =
      ["system: Tip: hi".data ++ '\n' :: cont] := by
  have hl : rustLines ("Tip: hi".data ++ '\n' :: (cont ++ '\n' :: ">".data)) =
      ["Tip: hi".data, cont, ">".data] :=
    rustLines_three _ _ _ (by decide) h3 (by decide) (by decide) h4 (by decide)
  have he : extract_transcript_candidates ("Tip: hi".data ++ '\n' :: (cont ++ '\n' :: ">".data)) =
      extractLoopF (rustLines ("Tip: hi".data ++ '\n' :: (cont ++ '\n' :: ">".data))).length
        (lastPromptIdx (rustLines ("Tip: hi".data ++ '\n' :: (cont ++ '\n' :: ">".data)))) 0
        (rustLines ("Tip: hi".data ++ '\n' :: (cont ++ '\n' :: ">".data))) := rfl
  rw [he, hl, lastPromptIdx_three_marker]
  show extractLoopF (2 + 1) (some 2) 0 ("Tip: hi".data :: cont :: [">".data]) =
    ["system: Tip: hi".data ++ '\n' :: cont]
  rw [extractLoopF_cons]
  rw [if_neg (by decide), if_neg (by decide), if_neg (by decide), if_pos (by decide)]
  rw [show ("system: ".data ++ rustTrim (rustTrim ("Tip: hi".data))) =
      "system: Tip: hi".data from by decide]
  rw [collectCont_cont_then_gt true false cont ["system: Tip: hi".data]
    h1 h2 h5 h6 h7 h8 h9 h10 h11 h12]
  rw [pairFst, pairSnd, if_neg (by decide), extractLoopF_tail_gt]
  rw [List.singleton_append, trimTrailingBlanks_pair _ _ h2, joinNl_pair]

/-- Claim C4 (amended): a continuation row of a user, assistant or
system-warning block has the fixed 2-column hanging indent stripped, while a
continuation row of a tip block keeps its original indentation verbatim — the
indent stripping applies to user, assistant AND system blocks, only tip blocks
preserve indentation. -/
theorem continuation_indent_asymmetry (cont : List Char)
    (h1 : rustTrimEnd cont = cont) (h2 : rustTrim cont ≠ [])
    (h3 : '\n' ∉ cont) (h4 : '\r' ∉ cont)
    (h5 : startsWith (rustTrimStart cont) ("Tip:".data) = false)
    (h6 : is_system_notice_line (rustTrimStart cont) = false)
    (h7 : startsWith cont ("• ".data) = false)
    (h8 : startsWith cont ("> ".data) = false)
    (h9 : cont ≠ ">".data)
    (h10 : startsWith cont ("› ".data) = false)
    (h11 : cont ≠ "›".data)
    (h12 : is_ui_noise_line cont = false) :
    extract_transcript_candidates ("> hi".data ++ '\n' :: (cont ++ '\n' :: ">".data)) =
      ["user: hi".data ++ '\n' :: strip_hanging_indent cont] ∧
    extract_transcript_candidates ("• hi".data ++ '\n' :: (cont ++ '\n' :: ">".data)) =
      ["assistant: hi".data ++ '\n' :: strip_hanging_indent cont] ∧
    extract_transcript_candidates ("⚠ hi".data ++ '\n' :: (cont ++ '\n' :: ">".data)) =
      ["system: ⚠ hi".data ++ '\n' :: strip_hanging_indent cont] ∧
    extract_transcript_candidates ("Tip: hi".data ++ '\n' :: (cont ++ '\n' :: ">".data)) =
      ["system: Tip: hi".data ++ '\n' :: cont] :=
  ⟨user_block_two_rows cont h1 h2 h3 h4 h5 h6 h7 h8 h9 h10 h11 h12,
   assistant_block_two_rows cont h1 h2 h3 h4 h5 h6 h7 h8 h9 h10 h11 h12,
   system_block_two_rows cont h1 h2 h3 h4 h5 h6 h7 h8 h9 h10 h11 h12,
   tip_block_two_rows cont h1 h2 h3 h4 h5 h6 h7 h8 h9 h10 h11 h12⟩

/-- Claim C4 witness: with the indented continuation row "  more", user,
assistant and system blocks lose the two-column indent while the tip block
keeps it. -/
theorem continuation_indent_asymmetry_witness :
    extract_transcript_candidates ("> hi\n  more\n>".data) = ["user: hi\nmore".data] ∧
    extract_transcript_candidates ("• hi\n  more\n>".data) = ["assistant: hi\nmore".data] ∧
    extract_transcript_candidates ("⚠ hi\n  more\n>".data) = ["system: ⚠ hi\nmore".data] ∧
    extract_transcript_candidates ("Tip: hi\n  more\n>".data) = ["system: Tip: hi\n  more".data] := by
  have h := continuation_indent_asymmetry ("  more".data)
    (by decide) (by decide) (by decide) (by decide) (by decide) (by decide)
    (by decide) (by decide) (by decide) (by decide) (by decide) (by decide)
  obtain ⟨hu, ha, hs, ht⟩ := h
  refine ⟨?_, ?_, ?_, ?_⟩
  · exact ((by decide : ("> hi\n  more\n>".data : List Char) =
      "> hi".data ++ '\n' :: ("  more".data ++ '\n' :: ">".data)) ▸ hu).trans (by decide)
  · exact ((by decide : ("• hi\n  more\n>".data : List Char) =
      "• hi".data ++ '\n' :: ("  more".data ++ '\n' :: ">".data)) ▸ ha).trans (by decide)
  · exact ((by decide : ("⚠ hi\n  more\n>".data : List Char) =
      "⚠ hi".data ++ '\n' :: ("  more".data ++ '\n' :: ">".data)) ▸ hs).trans (by decide)
  · exact ((by decide : ("Tip: hi\n  more\n>".data : List Char) =
      "Tip: hi".data ++ '\n' :: ("  more".data ++ '\n' :: ">".data)) ▸ ht).trans (by decide)

/-- Claim C4 counterexample: the continuation row "  Run /status for a
breakdown." of a system-warning block loses its two-column indent (the
emitted block contains "\nRun", not "\n  Run"), contradicting the claim that
system continuations keep their indentation verbatim; the code's own test
fixture exhibits exactly this. -/
theorem system_continuation_indent_stripped :
    extract_transcript_candidates
      ("⚠ Heads up, you have less than 25% of your weekly limit left.\n  Run /status for a breakdown.\n> prompt\n".data) =
      ["system: ⚠ Heads up, you have less than 25% of your weekly limit left.\nRun /status for a breakdown.".data] ∧
    containsStr
      ("system: ⚠ Heads up, you have less than 25% of your weekly limit left.\nRun /status for a breakdown.".data)
      ("\n  Run".data) = false ∧
    containsStr
      ("system: ⚠ Heads up, you have less than 25% of your weekly limit left.\nRun /status for a breakdown.".data)
      ("\nRun".data) = true := by decide
